import Mathlib

/-!
# Verification of the OpenClaw-EasySet configuration / health-check core

Shallow embedding of the configuration-mutation and diagnostic subsystem of
the OpenClaw-EasySet CLI:

* `src/core/openclaw-config.js` — config parsing, path-addressed
  get/set/merge, backup-then-write save (`parseOpenClawConfig`,
  `saveOpenClawConfig`, `updateOpenClawConfig`, `getPath`, `setPath`,
  `mergePath`, `deepMerge`);
* the plugin manager (`core/plugin-manager.js`) — `validatePluginConfig`,
  `enablePlugin`, `backupConfig`;
* `src/commands/security.js` — `runSecurityAudit` scoring,
  `applySecurityProfile`;
* `src/core/health-checker.js` — `HealthChecker.autoFix`.

JavaScript values are modelled by the inductive `Value` (JSON-style trees):
objects are insertion-ordered association lists, property assignment updates
an existing key in place or appends a new one, and truthiness follows the
JavaScript rules for the represented values.  External library functions
(`JSON.parse`, `JSON5.parse` and the two stringifiers) are parameters,
collected in the `ExtLib` structure.  File-system effects of the save path are
embedded as explicit operation traces (`FsOp`) interpreted against an
association-list file system, with a failure oracle standing for thrown
exceptions and a crash interpreter modelling interrupted writes.
-/

/-- JavaScript/JSON value tree, as manipulated by the config helpers.
Objects keep their fields in insertion order. -/
inductive Value where
  | vnull
  | vbool (b : Bool)
  | vnum (n : Int)
  | vstr (s : String)
  | varr (elems : List Value)
  | vobj (fields : List (String × Value))

namespace Value

/-- JavaScript truthiness of a defined value (`undefined` is handled at
lookup sites via `Option`). -/
def truthy : Value → Bool
  | .vnull => false
  | .vbool b => b
  | .vnum n => n != 0
  | .vstr s => s != ""
  | .varr _ => true
  | .vobj _ => true

/-- Truthiness of a possibly-`undefined` value (`none` = `undefined`). -/
def truthyO : Option Value → Bool
  | none => false
  | some v => truthy v

/-- `typeof v === 'object'` (true for objects, arrays and `null`). -/
def typeofObject : Value → Bool
  | .vnull => true
  | .varr _ => true
  | .vobj _ => true
  | _ => false

/-- `v && typeof v === 'object' && !Array.isArray(v)`: the guard both
`deepMerge` and `setPath` use to recognise a plain (mergeable) object. -/
def isPlainObj : Value → Bool
  | .vobj _ => true
  | _ => false

/-- Own enumerable string-keyed properties, as enumerated by both object
spread `{...v}` and `for (const key in v)`: an object's fields, an array's
or string's indexed elements, nothing for primitives. -/
def spreadFields : Value → List (String × Value)
  | .vobj fields => fields
  | .varr elems => elems.enum.map (fun p => (toString p.1, p.2))
  | .vstr s => s.toList.enum.map (fun p => (toString p.1, .vstr (String.mk [p.2])))
  | _ => []

end Value

/-- First binding of a key in an association list (JS property lookup;
`none` = `undefined`).  Also used for the file-system model below. -/
def lookupKey {α : Type} (fields : List (String × α)) (k : String) : Option α :=
  (fields.find? (fun p => p.1 = k)).map (fun p => p.2)

/-- JS property assignment on an object's field list: overwrite the first
existing binding in place, otherwise append the new key at the end. -/
def setKey {α : Type} (fields : List (String × α)) (k : String) (v : α) :
    List (String × α) :=
  match fields with
  | [] => [(k, v)]
  | (k', v') :: rest =>
      if k' = k then (k', v) :: rest else (k', v') :: setKey rest k v

/-- Property read `v[k]` (`none` = `undefined`). -/
def objGet (v : Value) (k : String) : Option Value :=
  lookupKey v.spreadFields k

/-- Property write `v[k] = x`.  Only objects are writable in this model;
on a non-object the value is returned unchanged (strict-mode JavaScript
would throw there — no code path verified below reaches that case). -/
def objAssign (v : Value) (k : String) (x : Value) : Value :=
  match v with
  | .vobj fields => .vobj (setKey fields k x)
  | _ => v

/-- Optional chaining `o?.k` on a possibly-undefined base: `undefined` and
`null` short-circuit to `undefined`, otherwise an ordinary property read. -/
def optChain (o : Option Value) (k : String) : Option Value :=
  match o with
  | none => none
  | some .vnull => none
  | some v => objGet v k

/-- `x || {}`: a truthy value passes through, anything falsy or undefined
becomes a fresh empty object. -/
def jsOrEmpty (o : Option Value) : Value :=
  match o with
  | some v => if v.truthy then v else .vobj []
  | none => .vobj []

/-- `a || b` on values where `a` may be undefined. -/
def jsOr (a : Option Value) (b : Value) : Value :=
  match a with
  | some v => if v.truthy then v else b
  | none => b

/-! ## `deepMerge` (identical code in `core/openclaw-config.js` and the
plugin manager)

```js
function deepMerge(target, source) {
  const output = { ...target };
  for (const key in source) {
    if (source[key] && typeof source[key] === 'object' && !Array.isArray(source[key])) {
      output[key] = deepMerge(target[key] || {}, source[key]);
    } else {
      output[key] = source[key];
    }
  }
  return output;
}
```
-/

/-- Loop body of `deepMerge`: `tf` is the original target's field list
(spread also seeds the accumulator `out`), the third argument the remaining
source entries.  A source value passing the plain-object guard (exactly the
`vobj` constructor in this model: `null` is falsy and arrays are excluded)
recurses on `target[key] || {}`; everything else is assigned wholesale. -/
def dmGo (tf out : List (String × Value)) :
    List (String × Value) → List (String × Value)
  | [] => out
  | (k, .vobj g) :: rest =>
      let tv := jsOrEmpty (lookupKey tf k)
      dmGo tf (setKey out k (.vobj (dmGo tv.spreadFields tv.spreadFields g))) rest
  | (k, sv) :: rest => dmGo tf (setKey out k sv) rest
  termination_by l => sizeOf l
  decreasing_by all_goals (simp_wf; try omega)

/-- `deepMerge(target, source)`. -/
def deepMerge (t s : Value) : Value :=
  .vobj (dmGo t.spreadFields t.spreadFields s.spreadFields)

/-! ## Path-addressed operations (`core/openclaw-config.js`) -/

/-- `path.split('.')` on the character list: split at every dot, keeping
empty segments (so `''.split('.')` is `['']`). -/
def splitOnDots : List Char → List (List Char)
  | [] => [[]]
  | c :: rest =>
      let r := splitOnDots rest
      if c = '.' then [] :: r
      else
        match r with
        | [] => [[c]]
        | g :: gs => (c :: g) :: gs

/-- `s.trim()`: strip leading and trailing whitespace. -/
def trimList (cs : List Char) : List Char :=
  ((cs.dropWhile Char.isWhitespace).reverse.dropWhile Char.isWhitespace).reverse

/-- `splitPath`: split on dots, trim each segment, drop empties
(`path.split('.').map(s => s.trim()).filter(Boolean)`). -/
def splitPath (path : String) : List String :=
  (((splitOnDots path.toList).map (fun cs => String.mk (trimList cs))).filter
    (fun s => s ≠ ""))

/-- `getPath` traversal: walking stops (returning `undefined`, i.e. the
caller's default) as soon as the current value is falsy, not of object
type, or lacks the next key. -/
def getPathSegs (v : Value) : List String → Option Value
  | [] => some v
  | k :: rest =>
      if v.truthy && v.typeofObject then
        match lookupKey v.spreadFields k with
        | some w => getPathSegs w rest
        | none => none
      else none

/-- `getPath(target, path, defaultValue)`. -/
def getPath (v : Value) (path : String) (dflt : Option Value) : Option Value :=
  match getPathSegs v (splitPath path) with
  | some w => some w
  | none => dflt

/-- The intermediate value `setPath` descends into: the present value when
it is a truthy plain object, a fresh `{}` otherwise (the
`if (!current[key] || typeof current[key] !== 'object' ||
Array.isArray(current[key])) current[key] = {}` guard). -/
def setPathChild (o : Option Value) : Value :=
  match o with
  | some c => if c.truthy && c.isPlainObj then c else .vobj []
  | none => .vobj []

/-- `setPath` on pre-split segments.  Intermediate values that are falsy,
non-objects or arrays are replaced by `{}` before descending; an empty
segment list corresponds to `current[keys[-1]]`, i.e. assignment to the
property literally named `"undefined"`. -/
def setPathSegs (v : Value) : List String → Value → Value
  | [], x => objAssign v "undefined" x
  | [k], x => objAssign v k x
  | k :: k' :: rest, x =>
      objAssign v k (setPathSegs (setPathChild (objGet v k)) (k' :: rest) x)

/-- `setPath(target, path, value)`. -/
def setPath (v : Value) (path : String) (x : Value) : Value :=
  setPathSegs v (splitPath path) x

/-- `mergePath(target, path, value)`: read the current value at `path`
(default `{}`), fall back to `{}` unless it is a plain object, deep-merge
and write back. -/
def mergePath (v : Value) (path : String) (x : Value) : Value :=
  let existing := getPath v path (some (.vobj []))
  let base :=
    match existing with
    | some e => if e.truthy && e.isPlainObj then e else .vobj []
    | none => .vobj []
  setPath v path (deepMerge base x)

/-! ## Serialization dialects and external library functions -/

/-- The two tolerated config serializations. -/
inductive CfgFormat where
  | json
  | json5
  deriving DecidableEq, Repr

/-- External library functions used by the config module: `JSON.parse`,
`JSON5.parse` (returning `none` where the library would throw) and the two
stringifiers `JSON.stringify(·, null, 2)` / `JSON5.stringify(·, null, 2)`.
These live outside the repository, so they are parameters of the model. -/
structure ExtLib where
  jsonParse : String → Option Value
  json5Parse : String → Option Value
  jsonStringify : Value → String
  json5Stringify : Value → String

/-- `parseOpenClawConfig(raw)`: try strict JSON first; on failure fall back
to JSON5.  `none` models the JSON5 error propagating when both parses
fail. -/
def parseOpenClawConfig (ext : ExtLib) (raw : String) : Option (Value × CfgFormat) :=
  match ext.jsonParse raw with
  | some config => some (config, .json)
  | none =>
      match ext.json5Parse raw with
      | some config => some (config, .json5)
      | none => none

/-! ## File-system model and the save path

`saveOpenClawConfig` performs straight-line file-system effects; they are
embedded as an explicit operation list interpreted against an
association-list file system.  A failure oracle (`fails`) stands for a
thrown exception at a given operation, and `crashRun` models a crash that
leaves the operation under way only partially applied. -/

/-- File system: association list from path to file content. -/
def FS : Type := List (String × String)

/-- `readFileSync` (`none` = no such file). -/
def readF (fs : FS) (p : String) : Option String :=
  lookupKey fs p

/-- `existsSync`. -/
def existsF (fs : FS) (p : String) : Bool :=
  (readF fs p).isSome

/-- `writeFileSync`: create or overwrite. -/
def writeF (fs : FS) (p : String) (c : String) : FS :=
  setKey fs p c

/-- One file-system operation attempted by the subsystem. -/
inductive FsOp where
  | copyFile (src dst : String)
  | writeFile (path content : String)
  | rename (src dst : String)
  | deleteFile (path : String)
  deriving DecidableEq, Repr

/-- Effect of one completed operation. -/
def applyOp (fs : FS) : FsOp → FS
  | .copyFile src dst =>
      match readF fs src with
      | some c => writeF fs dst c
      | none => fs
  | .writeFile p c => writeF fs p c
  | .rename src dst =>
      match readF fs src with
      | some c => writeF (fs.filter (fun q => q.1 ≠ src)) dst c
      | none => fs
  | .deleteFile p => fs.filter (fun q => q.1 ≠ p)

/-- Run an operation list with a failure oracle: stop at the first
operation for which the oracle says the underlying call throws, returning
the file system reached so far together with the failing operation. -/
def runOps (fails : FsOp → Bool) : FS → List FsOp → FS × Option FsOp
  | fs, [] => (fs, none)
  | fs, op :: rest =>
      if fails op then (fs, some op)
      else runOps fails (applyOp fs op) rest

/-- Failure-free run. -/
def runOpsOk (fs : FS) (ops : List FsOp) : FS :=
  (runOps (fun _ => false) fs ops).1

/-- A non-atomic data operation interrupted mid-way leaves a prefix of the
data it was transferring; directory-entry operations are atomic, so an
interrupted rename/delete has simply not happened yet. -/
def partialApply (fs : FS) (op : FsOp) (k : Nat) : FS :=
  match op with
  | .writeFile p c => writeF fs p (String.mk (c.toList.take k))
  | .copyFile src dst =>
      match readF fs src with
      | some c => writeF fs dst (String.mk (c.toList.take k))
      | none => fs
  | .rename _ _ => fs
  | .deleteFile _ => fs

/-- Crash semantics: the first `n` operations complete, the next one (if
any) is interrupted after transferring `k` units. -/
def crashRun (fs : FS) : List FsOp → Nat → Nat → FS
  | [], _, _ => fs
  | op :: _, 0, k => partialApply fs op k
  | op :: rest, n + 1, k => crashRun (applyOp fs op) rest n k

/-! ## `saveOpenClawConfig` and friends (`core/openclaw-config.js`) -/

/-- `OPENCLAW_CONFIG = join(homedir(), '.openclaw', 'openclaw.json')`.
`homedir()` is external; the literal stands for the resolved home
directory.  No verified property depends on the concrete path text. -/
def OPENCLAW_CONFIG : String := "/home/user/.openclaw/openclaw.json"

/-- Backup destination used by both `saveOpenClawConfig` and the plugin
manager's `backupConfig`: `` `${OPENCLAW_CONFIG}.easyset-backup.${Date.now()}` ``. -/
def backupPathFor (path : String) (ts : Nat) : String :=
  path ++ ".easyset-backup." ++ toString ts

/-- Serialized text written by `saveOpenClawConfig`:
`` `${serialized}\n` `` with the dialect-matching stringifier. -/
def saveSerialized (ext : ExtLib) (format : CfgFormat) (config : Value) : String :=
  (match format with
    | .json5 => ext.json5Stringify config
    | .json => ext.jsonStringify config) ++ "\n"

/-- The operations `saveOpenClawConfig(config, {backup, format})` attempts,
in program order: the backup copy first (only when `backup` is set and the
config file exists), then a single direct `writeFileSync` of the serialized
document to `OPENCLAW_CONFIG`. -/
def saveOps (ext : ExtLib) (fs : FS) (config : Value) (backup : Bool)
    (format : CfgFormat) (ts : Nat) : List FsOp :=
  (if backup && existsF fs OPENCLAW_CONFIG then
    [.copyFile OPENCLAW_CONFIG (backupPathFor OPENCLAW_CONFIG ts)]
  else []) ++ [.writeFile OPENCLAW_CONFIG (saveSerialized ext format config)]

/-- Result record of `saveOpenClawConfig`. -/
structure SaveResult where
  path : String
  backupPath : Option String
  deriving DecidableEq, Repr

/-- `saveOpenClawConfig` under a failure oracle: the reached file system,
the failing operation if one threw, and the result record of the
successful case. -/
def saveOpenClawConfig (ext : ExtLib) (fs : FS) (config : Value) (backup : Bool)
    (format : CfgFormat) (ts : Nat) (fails : FsOp → Bool) :
    (FS × Option FsOp) × SaveResult :=
  (runOps fails fs (saveOps ext fs config backup format ts),
   { path := OPENCLAW_CONFIG,
     backupPath :=
       if backup && existsF fs OPENCLAW_CONFIG then
         some (backupPathFor OPENCLAW_CONFIG ts)
       else none })

/-- Result record of `loadOpenClawConfig`. -/
structure LoadResult where
  config : Option Value
  raw : Option String
  format : Option CfgFormat
  existsOnDisk : Bool

/-- `loadOpenClawConfig({optional})`. -/
def loadOpenClawConfig (ext : ExtLib) (fs : FS) (optional : Bool) :
    Except String LoadResult :=
  match readF fs OPENCLAW_CONFIG with
  | none =>
      if optional then
        .ok { config := none, raw := none, format := none, existsOnDisk := false }
      else
        .error ("OpenClaw config not found at " ++ OPENCLAW_CONFIG)
  | some raw =>
      match parseOpenClawConfig ext raw with
      | some (config, format) =>
          .ok { config := some config, raw := some raw,
                format := some format, existsOnDisk := true }
      | none => .error "config parse error"

/-- `updateOpenClawConfig(mutator, {backup, create})` on the failure-free
path: load (or create an empty document), apply the mutator, save with the
loaded dialect (`loaded.format || 'json'`).  Returns the new file system,
the mutated document and the dialect used for the write. -/
def updateOpenClawConfig (ext : ExtLib) (fs : FS) (mutator : Value → Value)
    (backup create : Bool) (ts : Nat) : Except String (FS × Value × CfgFormat) :=
  let loaded? : Except String LoadResult :=
    if existsF fs OPENCLAW_CONFIG then
      loadOpenClawConfig ext fs false
    else if create then
      .ok { config := some (.vobj []), raw := none,
            format := some .json, existsOnDisk := false }
    else
      .error ("OpenClaw config not found at " ++ OPENCLAW_CONFIG)
  match loaded? with
  | .error e => .error e
  | .ok loaded =>
      let config0 := jsOrEmpty loaded.config
      let config := mutator config0
      let format := loaded.format.getD .json
      .ok (runOpsOk fs (saveOps ext fs config backup format ts), config, format)

/-- Operations of the plugin manager's `backupConfig()`: one timestamped
copy when the config file exists, nothing otherwise. -/
def backupConfigOps (fs : FS) (ts : Nat) : List FsOp :=
  if existsF fs OPENCLAW_CONFIG then
    [.copyFile OPENCLAW_CONFIG (backupPathFor OPENCLAW_CONFIG ts)]
  else []

/-! ## Plugin manager (`core/plugin-manager.js`) -/

/-- Plain two-step property read `v[k1][k2]` (the base `v[k1]` is defined
at every guarded use below). -/
def jsGet2 (v : Value) (k1 k2 : String) : Option Value :=
  match objGet v k1 with
  | some p => objGet p k2
  | none => none

/-- Nested assignment `v[k1][k2] = x`. -/
def assignIn2 (v : Value) (k1 k2 : String) (x : Value) : Value :=
  match objGet v k1 with
  | some p => objAssign v k1 (objAssign p k2 x)
  | none => v

/-- Nested assignment `v[k1][k2][k3] = x`. -/
def assignIn3 (v : Value) (k1 k2 k3 : String) (x : Value) : Value :=
  match objGet v k1 with
  | some p => objAssign v k1 (assignIn2 p k2 k3 x)
  | none => v

/-- Result of `validatePluginConfig`. -/
structure ValidationResult where
  valid : Bool
  errors : List String
  deriving DecidableEq, Repr

/-- `validatePluginConfig(name, config)`: per-plugin required-field checks,
one error per falsy field, `valid` iff no errors. -/
def validatePluginConfig (name : String) (config : Value) : ValidationResult :=
  let errors : List String :=
    (if name = "memory-lancedb" then
      (if Value.truthyO (optChain (objGet config "embedding") "apiKey") then []
       else ["OpenAI API key is required for Memory LanceDB"]) ++
      (if Value.truthyO (optChain (objGet config "embedding") "model") then []
       else ["Embedding model is required for Memory LanceDB"])
     else []) ++
    (if name = "llm-task" then
      (if Value.truthyO (objGet config "defaultProvider") then []
       else ["Default provider is required for LLM Task"]) ++
      (if Value.truthyO (objGet config "defaultModel") then []
       else ["Default model is required for LLM Task"])
     else [])
  { valid := errors.isEmpty, errors := errors }

/-- `enablePlugin(name, pluginConfig, slot)` acting on the loaded config
document: ensure the `plugins`/`entries`/`slots` structure exists,
deep-merge the candidate over the plugin's existing config, store
`{enabled: true, config: merged}`, and claim the slot when one is given
(`if (slot)` — a truthy, i.e. non-empty, slot string). -/
def enablePlugin (d : Value) (name : String) (cfg : Value)
    (slot : Option String) : Value :=
  let d1 := if Value.truthyO (objGet d "plugins") then d
            else objAssign d "plugins" (.vobj [])
  let d2 := if Value.truthyO (jsGet2 d1 "plugins" "entries") then d1
            else assignIn2 d1 "plugins" "entries" (.vobj [])
  let d3 := if Value.truthyO (jsGet2 d2 "plugins" "slots") then d2
            else assignIn2 d2 "plugins" "slots" (.vobj [])
  let entry? : Option Value :=
    match jsGet2 d3 "plugins" "entries" with
    | some entries => objGet entries name
    | none => none
  let existing := jsOrEmpty (optChain entry? "config")
  let merged := deepMerge existing cfg
  let d4 := assignIn3 d3 "plugins" "entries" name
    (.vobj [("enabled", .vbool true), ("config", merged)])
  match slot with
  | some s => if s ≠ "" then assignIn3 d4 "plugins" "slots" s (.vstr name) else d4
  | none => d4

/-! ## Security profiles (`commands/security.js`, `applySecurityProfile`) -/

/-- `SECURITY_PROFILES.minimal.settings`. -/
def minimalSettings : Value := .vobj
  [("pairing", .vbool false),
   ("webhookVerification", .vbool false),
   ("trustedProxies", .varr []),
   ("rateLimiting", .vbool false),
   ("apiKeyRotation", .vbool false)]

/-- `SECURITY_PROFILES.standard.settings`. -/
def standardSettings : Value := .vobj
  [("pairing", .vbool true),
   ("webhookVerification", .vbool true),
   ("trustedProxies", .varr [.vstr "127.0.0.1", .vstr "::1"]),
   ("rateLimiting", .vbool true),
   ("apiKeyRotation", .vbool false)]

/-- `SECURITY_PROFILES.hardened.settings`. -/
def hardenedSettings : Value := .vobj
  [("pairing", .vbool true),
   ("webhookVerification", .vbool true),
   ("trustedProxies", .varr [.vstr "127.0.0.1", .vstr "::1"]),
   ("rateLimiting", .vbool true),
   ("apiKeyRotation", .vbool true),
   ("ipAllowlist", .vbool true),
   ("auditLogging", .vbool true)]

/-- Strict string comparison `o === 's'` on a possibly-undefined value. -/
def strictEqStr (o : Option Value) (s : String) : Bool :=
  match o with
  | some (.vstr t) => t == s
  | _ => false

/-- The channel list hard-coded in `applySecurityProfile`. -/
def profileChannels : List String :=
  ["telegram", "imessage", "whatsapp", "discord", "slack"]

/-- Per-channel body of the `settings.pairing === true` loop: when the
channel sub-tree exists as an object-typed value, a falsy or `'open'` DM
policy is forced to `'pairing'`. -/
def pairingOnStep (cfg : Value) (ch : String) : Value :=
  match getPath cfg ("channels." ++ ch) none with
  | some cc =>
      if cc.truthy && cc.typeofObject then
        let cur := getPath cfg ("channels." ++ ch ++ ".dmPolicy") none
        if !Value.truthyO cur || strictEqStr cur "open" then
          setPath cfg ("channels." ++ ch ++ ".dmPolicy") (.vstr "pairing")
        else cfg
      else cfg
  | none => cfg

/-- Per-channel body of the `settings.pairing === false` loop: only a falsy
DM policy is set to `'open'`. -/
def pairingOffStep (cfg : Value) (ch : String) : Value :=
  match getPath cfg ("channels." ++ ch) none with
  | some cc =>
      if cc.truthy && cc.typeofObject then
        let cur := getPath cfg ("channels." ++ ch ++ ".dmPolicy") none
        if !Value.truthyO cur then
          setPath cfg ("channels." ++ ch ++ ".dmPolicy") (.vstr "open")
        else cfg
      else cfg
  | none => cfg

/-- The mutator `applySecurityProfile` passes to `updateOpenClawConfig`:
merge the profile settings into `security`, mirror the trusted-proxy list
into `gateway.trustedProxies` when it is an array, then walk the hard-coded
channel list according to `settings.pairing`. -/
def applyProfileMutator (settings : Value) (cfg : Value) : Value :=
  let c1 := mergePath cfg "security" settings
  let c2 :=
    match objGet settings "trustedProxies" with
    | some (.varr xs) => setPath c1 "gateway.trustedProxies" (.varr xs)
    | _ => c1
  let c3 :=
    match objGet settings "pairing" with
    | some (.vbool true) => profileChannels.foldl pairingOnStep c2
    | _ => c2
  match objGet settings "pairing" with
  | some (.vbool false) => profileChannels.foldl pairingOffStep c3
  | _ => c3

/-! ## Security audit (`commands/security.js`, `runSecurityAudit`) -/

/-- Channels inspected by `getDmPolicies`. -/
def auditChannels : List String :=
  ["whatsapp", "telegram", "signal", "imessage", "mattermost", "googlechat"]

/-- `getDmPolicies(config)`: for each known channel with a truthy sub-tree,
collect `value.dmPolicy || value.dm?.policy` when that is truthy. -/
def getDmPolicies (config : Value) : List (String × Value) :=
  auditChannels.filterMap (fun ch =>
    match optChain (objGet config "channels") ch with
    | none => none
    | some v =>
        if v.truthy then
          match (if Value.truthyO (objGet v "dmPolicy") then objGet v "dmPolicy"
                 else optChain (objGet v "dm") "policy") with
          | some p => if p.truthy then some (ch, p) else none
          | none => none
        else none)

/-- Live-system inputs of the audit that are not part of the config
document: platform, probed permission bits, directory existence, API-key
environment variables. -/
structure AuditEnv where
  win32 : Bool
  configPermSecure : Bool
  logDirExists : Bool
  logPermSecure : Bool
  wsDirExists : Bool
  wsOwnerOnly : Bool
  hasEnvApiKey : Bool

/-- One audit finding.  The presentation-only `description`/`fix` message
strings are not modelled; `autoFixable` records whether the finding carries
an `autoFix` closure. -/
structure Finding where
  severity : String
  title : String
  autoFixable : Bool
  deriving DecidableEq, Repr

/-- Score and report contribution of one audit check block. -/
structure Contribution where
  earned : Nat
  possible : Nat
  issues : List Finding
  passed : List String
  warnings : List Finding

/-- Check 1: DM/channel exposure (20 points). -/
def checkDmExposure (config : Value) : Contribution :=
  let openPolicies := (getDmPolicies config).filter
    (fun p => strictEqStr (some p.2) "open")
  if openPolicies.isEmpty then
    ⟨20, 20, [], ["DM policies are not publicly open"], []⟩
  else
    ⟨0, 20, [⟨"high", "Open DM policy detected", false⟩], [], []⟩

/-- Check 2: gateway auth secret (15 points). -/
def checkGatewayAuth (config : Value) : Contribution :=
  if Value.truthyO (optChain (optChain (objGet config "gateway") "auth") "token")
      || Value.truthyO (optChain (optChain (objGet config "gateway") "auth") "password") then
    ⟨15, 15, [], ["Gateway auth secret configured"], []⟩
  else
    ⟨0, 15, [⟨"high", "Gateway auth not configured", false⟩], [], []⟩

/-- Check 3: config file permissions (15 points, Unix only). -/
def checkConfigPerms (env : AuditEnv) : Contribution :=
  if env.win32 then ⟨0, 0, [], [], []⟩
  else if env.configPermSecure then
    ⟨15, 15, [], ["Config file permissions are secure"], []⟩
  else
    ⟨0, 15, [⟨"high", "Insecure file permissions", true⟩], [], []⟩

/-- Check 4: model-authentication source (10 points, partial credit 5 for a
key literal in the config). -/
def checkAuthSource (config : Value) (env : AuditEnv) : Contribution :=
  let profiles := optChain (objGet config "auth") "profiles"
  let hasAuthProfiles := Value.truthyO profiles &&
    0 < (match profiles with
          | some v => v.spreadFields.length
          | none => 0)
  if hasAuthProfiles || env.hasEnvApiKey then
    ⟨10, 10, [], ["Model authentication source configured"], []⟩
  else if Value.truthyO (optChain (objGet config "anthropic") "apiKey")
      || Value.truthyO (optChain (objGet config "openai") "apiKey") then
    ⟨5, 10, [], [], [⟨"low", "API key in config file", false⟩]⟩
  else
    ⟨0, 10, [], [], []⟩

/-- `config.gateway?.bind || 'loopback'`. -/
def bindAddress (config : Value) : Value :=
  jsOr (optChain (objGet config "gateway") "bind") (.vstr "loopback")

/-- Check 5: gateway bind address (15 points, partial credit 10 for `lan`). -/
def checkBindAddress (config : Value) : Contribution :=
  let b := bindAddress config
  if strictEqStr (some b) "loopback" || strictEqStr (some b) "127.0.0.1" then
    ⟨15, 15, [], ["Gateway bound to loopback only"], []⟩
  else if strictEqStr (some b) "lan" then
    ⟨10, 15, [], [], [⟨"medium", "Gateway accessible on LAN", false⟩]⟩
  else
    ⟨0, 15, [⟨"high", "Gateway publicly accessible", false⟩], [], []⟩

/-- Check 6: trusted proxies (10 points; a medium finding only when the
bind address is not exactly `'loopback'`). -/
def checkTrustedProxies (config : Value) : Contribution :=
  let tp := jsOr (optChain (objGet config "gateway") "trustedProxies")
    (jsOr (optChain (objGet config "security") "trustedProxies") (.varr []))
  if (match tp with | .varr xs => !xs.isEmpty | _ => false) then
    ⟨10, 10, [], ["Trusted proxies configured"], []⟩
  else if !strictEqStr (some (bindAddress config)) "loopback" then
    ⟨0, 10, [⟨"medium", "No trusted proxies configured", false⟩], [], []⟩
  else
    ⟨0, 10, [], [], []⟩

/-- Check 7: control-UI device-auth escape hatch (10 points). -/
def checkControlUi (config : Value) : Contribution :=
  if Value.truthyO (optChain (optChain (objGet config "gateway") "controlUi")
      "dangerouslyDisableDeviceAuth") then
    ⟨0, 10, [⟨"high", "Control UI device auth disabled", false⟩], [], []⟩
  else
    ⟨10, 10, [], ["Control UI device auth guard is enabled"], []⟩

/-- Check 8: log directory permissions (10 points, Unix only; a missing
directory contributes to the denominator but earns nothing). -/
def checkLogPerms (env : AuditEnv) : Contribution :=
  if env.win32 then ⟨0, 0, [], [], []⟩
  else if env.logDirExists then
    if env.logPermSecure then
      ⟨10, 10, [], ["Log directory permissions are secure"], []⟩
    else
      ⟨0, 10, [⟨"medium", "Insecure log directory permissions", true⟩], [], []⟩
  else ⟨0, 10, [], [], []⟩

/-- Check 9: workspace directory permissions (5 points, Unix only). -/
def checkWorkspacePerms (env : AuditEnv) : Contribution :=
  if env.win32 then ⟨0, 0, [], [], []⟩
  else if env.wsDirExists then
    if env.wsOwnerOnly then
      ⟨5, 5, [], ["Workspace directory permissions are secure"], []⟩
    else
      ⟨0, 5, [], [], [⟨"low", "Workspace directory readable by others", false⟩]⟩
  else ⟨0, 5, [], [], []⟩

/-- The nine check blocks of `runSecurityAudit`, in program order. -/
def auditContributions (config : Value) (env : AuditEnv) : List Contribution :=
  [checkDmExposure config, checkGatewayAuth config, checkConfigPerms env,
   checkAuthSource config env, checkBindAddress config,
   checkTrustedProxies config, checkControlUi config,
   checkLogPerms env, checkWorkspacePerms env]

/-- Aggregate audit results. -/
structure AuditResults where
  score : Nat
  maxScore : Nat
  issues : List Finding
  passed : List String
  warnings : List Finding

/-- `runSecurityAudit` scoring: accumulate the nine checks. -/
def runSecurityAudit (config : Value) (env : AuditEnv) : AuditResults :=
  let cs := auditContributions config env
  { score := (cs.map (fun c => c.earned)).sum,
    maxScore := (cs.map (fun c => c.possible)).sum,
    issues := (cs.map (fun c => c.issues)).flatten,
    passed := (cs.map (fun c => c.passed)).flatten,
    warnings := (cs.map (fun c => c.warnings)).flatten }

/-- `(results.score / results.maxScore) * 100`, the percentage the letter
grade is derived from. -/
def auditPercentage (r : AuditResults) : ℚ :=
  ((r.score : ℚ) / (r.maxScore : ℚ)) * 100

/-! ## `HealthChecker.autoFix` (`core/health-checker.js`) -/

/-- One health-check result (`{name, category, status, message, fix}`). -/
structure CheckResult where
  name : String
  category : String
  status : String
  message : String
  fix : Option String
  deriving DecidableEq, Repr

/-- One auto-fix outcome record (`{check, action, success}`). -/
structure FixOutcome where
  check : String
  action : String
  success : Bool
  deriving DecidableEq, Repr

/-- Character-list core of `String.startsWith`. -/
def startsWithL (s p : List Char) : Bool :=
  match s, p with
  | _, [] => true
  | [], _ :: _ => false
  | c :: cs, q :: qs => c == q && startsWithL cs qs

/-- `s.startsWith(p)` on the character lists. -/
def strStartsWith (s p : String) : Bool :=
  startsWithL s.toList p.toList

/-- `'Run: '.length` is 5; `fix.replace('Run: ', '')` on a string that
starts with `'Run: '` removes exactly that leading occurrence. -/
def stripRunColon (f : String) : String :=
  String.mk (f.toList.drop 5)

/-- Loop body of `autoFix` for one result: skip unless the status is
`fail`/`warn` and the fix text is truthy; execute only the three
allow-listed shapes (`Run: chmod`, `Run: mkdir`, `Run: launchctl load`),
stripping the leading `'Run: '`; record success with the stripped command
and failure with the original fix text.  Returns the outcome records
together with the shell commands actually handed to `executeCommand`
(`exec` is the success oracle for those commands). -/
def autoFixStep (exec : String → Bool) (r : CheckResult) :
    List FixOutcome × List String :=
  if r.status ≠ "fail" ∧ r.status ≠ "warn" then ([], [])
  else
    match r.fix with
    | none => ([], [])
    | some f =>
        if f = "" then ([], [])
        else if strStartsWith f "Run: chmod" || strStartsWith f "Run: mkdir"
            || strStartsWith f "Run: launchctl load" then
          let cmd := stripRunColon f
          if exec cmd then ([⟨r.name, cmd, true⟩], [cmd])
          else ([⟨r.name, f, false⟩], [cmd])
        else ([], [])

/-- `HealthChecker.autoFix()`: one pass over the stored results, each
result handled independently. -/
def autoFix (exec : String → Bool) : List CheckResult →
    List FixOutcome × List String
  | [] => ([], [])
  | r :: rest =>
      let s := autoFixStep exec r
      let t := autoFix exec rest
      (s.1 ++ t.1, s.2 ++ t.2)

/-! ## Helper lemmas -/

theorem lookupKey_cons {α : Type} (k0 : String) (v0 : α) (tl : List (String × α))
    (k : String) :
    lookupKey ((k0, v0) :: tl) k = if k0 = k then some v0 else lookupKey tl k := by
  by_cases h : k0 = k <;> simp [lookupKey, List.find?, h]

theorem lookupKey_setKey {α : Type} (fs : List (String × α)) (k k' : String)
    (v : α) :
    lookupKey (setKey fs k v) k' = if k' = k then some v else lookupKey fs k' := by
  induction fs with
  | nil =>
      by_cases h : k = k'
      · subst h; simp [setKey, lookupKey_cons]
      · simp [setKey, lookupKey_cons, h, Ne.symm h]
  | cons hd tl ih =>
      obtain ⟨k0, v0⟩ := hd
      by_cases h0 : k0 = k
      · subst h0
        by_cases h : k0 = k'
        · subst h; simp [setKey, lookupKey_cons]
        · simp [setKey, lookupKey_cons, h, Ne.symm h]
      · by_cases h1 : k0 = k'
        · subst h1
          simp [setKey, lookupKey_cons, h0, Ne.symm h0, ih]
        · simp [setKey, lookupKey_cons, h0, h1, Ne.symm h1, ih]

theorem readF_writeF (fs : FS) (p c q) :
    readF (writeF fs p c) q = if q = p then some c else readF fs q := by
  simpa [readF, writeF] using lookupKey_setKey fs p q c

/-- The backup destination is never the config file itself (the suffix
makes it strictly longer). -/
theorem backupPathFor_ne (p : String) (ts : Nat) : backupPathFor p ts ≠ p := by
  intro h
  have hlen := congrArg String.length h
  simp only [backupPathFor, String.length_append] at hlen
  have : (16 : Nat) ≤ String.length ".easyset-backup." := by decide
  omega

/-! ## C10 — plugin-config validation -/

/-- Claim C10: for every plugin name other than `memory-lancedb` and
`llm-task`, validation returns `{valid: true, errors: []}` for every
candidate config; for `memory-lancedb` validity holds iff
`embedding.apiKey` and `embedding.model` are truthy, with one error per
falsy field; for `llm-task` likewise over `defaultProvider` and
`defaultModel`; and in general `valid` is true iff the error list is
empty. -/
theorem validatePluginConfig_claim (name : String) (config : Value) :
    (name ≠ "memory-lancedb" → name ≠ "llm-task" →
      validatePluginConfig name config = ⟨true, []⟩)
    ∧ ((validatePluginConfig "memory-lancedb" config).valid = true ↔
        (Value.truthyO (optChain (objGet config "embedding") "apiKey") = true
         ∧ Value.truthyO (optChain (objGet config "embedding") "model") = true))
    ∧ ((validatePluginConfig "memory-lancedb" config).errors.length
        = (if Value.truthyO (optChain (objGet config "embedding") "apiKey") then 0 else 1)
          + (if Value.truthyO (optChain (objGet config "embedding") "model") then 0 else 1))
    ∧ ((validatePluginConfig "llm-task" config).valid = true ↔
        (Value.truthyO (objGet config "defaultProvider") = true
         ∧ Value.truthyO (objGet config "defaultModel") = true))
    ∧ ((validatePluginConfig "llm-task" config).errors.length
        = (if Value.truthyO (objGet config "defaultProvider") then 0 else 1)
          + (if Value.truthyO (objGet config "defaultModel") then 0 else 1))
    ∧ ((validatePluginConfig name config).valid = true ↔
        (validatePluginConfig name config).errors = []) := by
  refine ⟨?_, ?_, ?_, ?_, ?_, ?_⟩
  · intro h1 h2
    simp [validatePluginConfig, h1, h2]
  · cases h1 : Value.truthyO (optChain (objGet config "embedding") "apiKey") <;>
      cases h2 : Value.truthyO (optChain (objGet config "embedding") "model") <;>
      simp [validatePluginConfig, h1, h2]
  · cases h1 : Value.truthyO (optChain (objGet config "embedding") "apiKey") <;>
      cases h2 : Value.truthyO (optChain (objGet config "embedding") "model") <;>
      simp [validatePluginConfig, h1, h2]
  · cases h1 : Value.truthyO (objGet config "defaultProvider") <;>
      cases h2 : Value.truthyO (objGet config "defaultModel") <;>
      simp [validatePluginConfig, h1, h2]
  · cases h1 : Value.truthyO (objGet config "defaultProvider") <;>
      cases h2 : Value.truthyO (objGet config "defaultModel") <;>
      simp [validatePluginConfig, h1, h2]
  · simp [validatePluginConfig, List.isEmpty_iff]

/-- Witness for C10 at a concrete unknown plugin name. -/
theorem validatePluginConfig_claim_witness :
    validatePluginConfig "weather" (.vobj []) = ⟨true, []⟩ :=
  (validatePluginConfig_claim "weather" (.vobj [])).1
    (by decide) (by decide)

/-! ## Concrete instantiations used by witnesses -/

/-- Concrete external-library instantiation for witnesses: strict parse
always fails, permissive parse always succeeds. -/
def extW : ExtLib :=
  { jsonParse := fun _ => none,
    json5Parse := fun _ => some (.vobj []),
    jsonStringify := fun _ => "strict",
    json5Stringify := fun _ => "permissive" }

/-- Concrete file system for witnesses: the config file holds `"old"`. -/
def fsW : FS := [(OPENCLAW_CONFIG, "old")]

/-! ## C1 — backup-before-overwrite and abort on backup failure -/

/-- Claim C1: with `backup: true` and an existing config file, the save's
operation sequence is the backup copy followed by the single write, so the
backup exists with the prior content whether or not the write succeeds; and
when the backup copy throws, the save aborts with the file system — in
particular the config file's content — exactly as before the call. -/
theorem saveBackup_claim (ext : ExtLib) (fs : FS) (config : Value)
    (format : CfgFormat) (ts : Nat) (old : String) (fails : FsOp → Bool)
    (hold : readF fs OPENCLAW_CONFIG = some old) :
    (saveOps ext fs config true format ts
      = [.copyFile OPENCLAW_CONFIG (backupPathFor OPENCLAW_CONFIG ts),
         .writeFile OPENCLAW_CONFIG (saveSerialized ext format config)])
    ∧ (fails (.copyFile OPENCLAW_CONFIG (backupPathFor OPENCLAW_CONFIG ts)) = false →
        readF (runOps fails fs (saveOps ext fs config true format ts)).1
          (backupPathFor OPENCLAW_CONFIG ts) = some old)
    ∧ (fails (.copyFile OPENCLAW_CONFIG (backupPathFor OPENCLAW_CONFIG ts)) = true →
        runOps fails fs (saveOps ext fs config true format ts)
          = (fs, some (.copyFile OPENCLAW_CONFIG (backupPathFor OPENCLAW_CONFIG ts)))
        ∧ readF (runOps fails fs (saveOps ext fs config true format ts)).1
            OPENCLAW_CONFIG = some old) := by
  have hex : existsF fs OPENCLAW_CONFIG = true := by simp [existsF, hold]
  have hops : saveOps ext fs config true format ts
      = [.copyFile OPENCLAW_CONFIG (backupPathFor OPENCLAW_CONFIG ts),
         .writeFile OPENCLAW_CONFIG (saveSerialized ext format config)] := by
    simp [saveOps, hex]
  refine ⟨hops, ?_, ?_⟩
  · intro hc
    rw [hops]
    by_cases hw : fails (.writeFile OPENCLAW_CONFIG (saveSerialized ext format config)) = true
    · simp [runOps, hc, hw, applyOp, hold, readF_writeF]
    · simp only [Bool.not_eq_true] at hw
      simp [runOps, hc, hw, applyOp, hold, readF_writeF,
        backupPathFor_ne OPENCLAW_CONFIG ts]
  · intro hc
    rw [hops]
    simp [runOps, hc, hold]

/-- Witness for C1: concrete save with no failures; the backup file holds
the prior content. -/
theorem saveBackup_claim_witness :
    readF (runOps (fun _ => false) fsW
        (saveOps extW fsW (.vobj []) true .json 5)).1
      (backupPathFor OPENCLAW_CONFIG 5) = some "old" :=
  (saveBackup_claim extW fsW (.vobj []) .json 5 "old" (fun _ => false)
    (by decide)).2.1 rfl

/-! ## C2 — the save is a direct overwrite, not temp-file-then-rename -/

/-- Modelled from the spec: an atomic save writes the serialized document
to a temporary file distinct from the target and then renames it over the
target, and never writes the target path directly. -/
def specAtomicSaveOps (ops : List FsOp) (target : String) : Prop :=
  (∃ tmp, tmp ≠ target ∧ (∃ c, FsOp.writeFile tmp c ∈ ops)
    ∧ FsOp.rename tmp target ∈ ops)
  ∧ ∀ c, FsOp.writeFile target c ∉ ops

/-- Concrete external library for the C2 counterexample: the serializer
produces `"NEWCONTENT"`. -/
def extC2 : ExtLib :=
  { jsonParse := fun _ => some (.vobj []),
    json5Parse := fun _ => none,
    jsonStringify := fun _ => "NEWCONTENT",
    json5Stringify := fun _ => "NEWCONTENT" }

/-- Concrete file system for the C2 counterexample. -/
def fsC2 : FS := [(OPENCLAW_CONFIG, "OLDCONTENT")]

/-- Counterexample to C2: the save's operation list writes the target path
directly and contains no rename, so it is not the spec's
temp-file-then-rename shape; and a crash three characters into the write
leaves the config file holding `"NEW"` — neither the complete old contents
`"OLDCONTENT"` nor the complete new contents `"NEWCONTENT\n"`. -/
theorem saveAtomicity_counterexample :
    ¬ specAtomicSaveOps (saveOps extC2 fsC2 (.vobj []) false .json 7)
        OPENCLAW_CONFIG
    ∧ readF (crashRun fsC2 (saveOps extC2 fsC2 (.vobj []) false .json 7) 0 3)
        OPENCLAW_CONFIG = some "NEW"
    ∧ ("NEW" : String) ≠ "OLDCONTENT" ∧ ("NEW" : String) ≠ "NEWCONTENT\n" := by
  refine ⟨?_, by decide, by decide, by decide⟩
  rintro ⟨-, hno⟩
  exact hno (saveSerialized extC2 .json (.vobj [])) (by simp [saveOps])

/-- Amended C2: the save performs exactly one write, directly to the target
path, and no rename; a successful run leaves the complete serialized
document on disk; and an execution whose write call throws (modelled as
failing before any data transfer) leaves the prior content in place. -/
theorem saveDirectWrite_amended (ext : ExtLib) (fs : FS) (config : Value)
    (backup : Bool) (format : CfgFormat) (ts : Nat) :
    ((saveOps ext fs config backup format ts).filter
        (fun op => match op with | .writeFile _ _ => true | _ => false)
      = [.writeFile OPENCLAW_CONFIG (saveSerialized ext format config)])
    ∧ (∀ s d, FsOp.rename s d ∉ saveOps ext fs config backup format ts)
    ∧ ((existsF fs OPENCLAW_CONFIG = true ∨ backup = false) →
        readF (runOpsOk fs (saveOps ext fs config backup format ts))
          OPENCLAW_CONFIG = some (saveSerialized ext format config))
    ∧ (∀ fails : FsOp → Bool,
        fails (.writeFile OPENCLAW_CONFIG (saveSerialized ext format config)) = true →
        readF (runOps fails fs (saveOps ext fs config backup format ts)).1
          OPENCLAW_CONFIG = readF fs OPENCLAW_CONFIG) := by
  by_cases hb : (backup && existsF fs OPENCLAW_CONFIG) = true
  · rcases hr : readF fs OPENCLAW_CONFIG with - | o
    · exfalso
      simp [existsF, hr] at hb
    · refine ⟨by simp [saveOps, hb], by simp [saveOps, hb], ?_, ?_⟩
      · intro _
        simp [saveOps, hb, runOpsOk, runOps, applyOp, hr, readF_writeF]
      · intro fails hw
        by_cases hc : fails (.copyFile OPENCLAW_CONFIG
            (backupPathFor OPENCLAW_CONFIG ts)) = true
        · simp [saveOps, hb, runOps, hc, hr]
        · simp only [Bool.not_eq_true] at hc
          simp [saveOps, hb, runOps, hc, hw, applyOp, hr, readF_writeF,
            Ne.symm (backupPathFor_ne OPENCLAW_CONFIG ts)]
  · simp only [Bool.not_eq_true] at hb
    refine ⟨by simp [saveOps, hb], by simp [saveOps, hb], ?_, ?_⟩
    · intro _
      simp [saveOps, hb, runOpsOk, runOps, applyOp, readF_writeF]
    · intro fails hw
      simp [saveOps, hb, runOps, hw]

/-- Witness for the amended C2: with a failing write, the config file still
holds `"old"`; with no failures, it holds the new serialized text. -/
theorem saveDirectWrite_amended_witness :
    readF (runOps
        (fun op => op matches .writeFile _ _) fsW
        (saveOps extW fsW (.vobj []) false .json 5)).1
      OPENCLAW_CONFIG = readF fsW OPENCLAW_CONFIG :=
  (saveDirectWrite_amended extW fsW (.vobj []) false .json 5).2.2.2
    (fun op => op matches .writeFile _ _) rfl

/-! ## C9 — backup file naming -/

/-- Modelled from the spec: backup naming
`<original-path>.backup.<millisecond-unix-timestamp>`. -/
def specBackupPath (path : String) (ts : Nat) : String :=
  path ++ ".backup." ++ toString ts

/-- Counterexample to C9: the backup destination the code computes carries
the suffix `.easyset-backup.<ts>`, which differs from the spec's
`<path>.backup.<ts>` at a concrete timestamp. -/
theorem backupNaming_counterexample :
    backupPathFor OPENCLAW_CONFIG 1700000000000
      ≠ specBackupPath OPENCLAW_CONFIG 1700000000000 := by
  decide

/-- Amended C9: the backup created before overwriting is named
`<original-path>.easyset-backup.<millisecond-unix-timestamp>` — by both the
save path and the plugin manager's `backupConfig` — it is a plain copy of
the prior file content, and no operation of this subsystem deletes any
file. -/
theorem backupNaming_amended (ext : ExtLib) (fs : FS) (config : Value)
    (format : CfgFormat) (ts : Nat) (old : String)
    (hold : readF fs OPENCLAW_CONFIG = some old) :
    readF (runOpsOk fs (saveOps ext fs config true format ts))
      (OPENCLAW_CONFIG ++ ".easyset-backup." ++ toString ts) = some old
    ∧ readF (runOpsOk fs (backupConfigOps fs ts))
        (OPENCLAW_CONFIG ++ ".easyset-backup." ++ toString ts) = some old
    ∧ (∀ op ∈ saveOps ext fs config true format ts, ∀ p, op ≠ .deleteFile p)
    ∧ (∀ op ∈ backupConfigOps fs ts, ∀ p, op ≠ .deleteFile p) := by
  have hex : existsF fs OPENCLAW_CONFIG = true := by simp [existsF, hold]
  have hip : OPENCLAW_CONFIG ++ ".easyset-backup." ++ toString ts
      = backupPathFor OPENCLAW_CONFIG ts := rfl
  refine ⟨?_, ?_, ?_, ?_⟩
  · rw [hip]
    simp [saveOps, hex, runOpsOk, runOps, applyOp, hold, readF_writeF,
      backupPathFor_ne OPENCLAW_CONFIG ts]
  · rw [hip]
    simp [backupConfigOps, hex, runOpsOk, runOps, applyOp, hold, readF_writeF]
  · intro op hop p
    simp [saveOps, hex] at hop
    rcases hop with h | h <;> simp [h]
  · intro op hop p
    simp [backupConfigOps, hex] at hop
    simp [hop]

/-- Witness for the amended C9 at a concrete file system. -/
theorem backupNaming_amended_witness :
    readF (runOpsOk fsW (backupConfigOps fsW 5))
      (OPENCLAW_CONFIG ++ ".easyset-backup." ++ toString 5) = some "old" :=
  (backupNaming_amended extW fsW (.vobj []) .json 5 "old" (by decide)).2.1

/-! ## C3 — dialect detection and preservation -/

/-- Claim C3: a config text that fails strict JSON parsing but parses in
the permissive dialect is tagged `json5` by parse/load, and a subsequent
save of the loaded document through `updateOpenClawConfig` serializes it
with the JSON5 stringifier; a strict-JSON text is tagged `json` and written
back with the strict stringifier. -/
theorem dialectPreservation_claim (ext : ExtLib) (fs : FS) (raw : String)
    (c : Value) (m : Value → Value) (backup : Bool) (ts : Nat)
    (hraw : readF fs OPENCLAW_CONFIG = some raw) (hc : c.truthy = true) :
    (ext.jsonParse raw = none → ext.json5Parse raw = some c →
      parseOpenClawConfig ext raw = some (c, .json5)
      ∧ loadOpenClawConfig ext fs true
          = .ok ⟨some c, some raw, some .json5, true⟩
      ∧ ∃ fs', updateOpenClawConfig ext fs m backup false ts
            = .ok (fs', m c, .json5)
          ∧ readF fs' OPENCLAW_CONFIG
              = some (ext.json5Stringify (m c) ++ "\n"))
    ∧ (ext.jsonParse raw = some c →
      parseOpenClawConfig ext raw = some (c, .json)
      ∧ loadOpenClawConfig ext fs true
          = .ok ⟨some c, some raw, some .json, true⟩
      ∧ ∃ fs', updateOpenClawConfig ext fs m backup false ts
            = .ok (fs', m c, .json)
          ∧ readF fs' OPENCLAW_CONFIG
              = some (ext.jsonStringify (m c) ++ "\n")) := by
  have hex : existsF fs OPENCLAW_CONFIG = true := by simp [existsF, hraw]
  constructor
  · intro hj h5
    have hparse : parseOpenClawConfig ext raw = some (c, .json5) := by
      simp [parseOpenClawConfig, hj, h5]
    refine ⟨hparse, ?_, ?_⟩
    · simp [loadOpenClawConfig, hraw, hparse]
    · refine ⟨runOpsOk fs (saveOps ext fs (m c) backup .json5 ts), ?_, ?_⟩
      · simp [updateOpenClawConfig, hex, loadOpenClawConfig, hraw, hparse,
          jsOrEmpty, hc]
      · by_cases hb : (backup && existsF fs OPENCLAW_CONFIG) = true
        · simp [saveOps, hb, runOpsOk, runOps, applyOp, hraw, readF_writeF,
            saveSerialized]
        · simp only [Bool.not_eq_true] at hb
          simp [saveOps, hb, runOpsOk, runOps, applyOp, readF_writeF,
            saveSerialized]
  · intro hj
    have hparse : parseOpenClawConfig ext raw = some (c, .json) := by
      simp [parseOpenClawConfig, hj]
    refine ⟨hparse, ?_, ?_⟩
    · simp [loadOpenClawConfig, hraw, hparse]
    · refine ⟨runOpsOk fs (saveOps ext fs (m c) backup .json ts), ?_, ?_⟩
      · simp [updateOpenClawConfig, hex, loadOpenClawConfig, hraw, hparse,
          jsOrEmpty, hc]
      · by_cases hb : (backup && existsF fs OPENCLAW_CONFIG) = true
        · simp [saveOps, hb, runOpsOk, runOps, applyOp, hraw, readF_writeF,
            saveSerialized]
        · simp only [Bool.not_eq_true] at hb
          simp [saveOps, hb, runOpsOk, runOps, applyOp, readF_writeF,
            saveSerialized]

/-- Witness for C3: a permissive-only text is loaded with the `json5`
dialect tag. -/
theorem dialectPreservation_claim_witness :
    loadOpenClawConfig extW fsW true
      = .ok ⟨some (.vobj []), some "old", some .json5, true⟩ :=
  ((dialectPreservation_claim extW fsW "old" (.vobj []) id false 0
    (by decide) rfl).1 rfl rfl).2.1

/-! ## deepMerge lookup lemmas -/

theorem dmGo_lookup_notin (tf : List (String × Value)) (k : String) :
    ∀ (sf out : List (String × Value)), k ∉ sf.map Prod.fst →
      lookupKey (dmGo tf out sf) k = lookupKey out k := by
  intro sf
  induction sf with
  | nil => intro out _; simp [dmGo]
  | cons hd rest ih =>
      intro out h
      obtain ⟨k0, sv⟩ := hd
      have hk : k ≠ k0 := by
        intro hh
        exact h (by simp [hh])
      have hrest : k ∉ rest.map Prod.fst := fun hh => h (by simp [hh])
      cases sv <;> simp [dmGo, ih _ hrest, lookupKey_setKey, hk]

theorem dmGo_lookup_obj (tf : List (String × Value)) (k : String)
    (g : List (String × Value)) :
    ∀ (sf out : List (String × Value)), (sf.map Prod.fst).Nodup →
      (k, Value.vobj g) ∈ sf →
      lookupKey (dmGo tf out sf) k
        = some (.vobj (dmGo (jsOrEmpty (lookupKey tf k)).spreadFields
            (jsOrEmpty (lookupKey tf k)).spreadFields g)) := by
  intro sf
  induction sf with
  | nil => intro out _ hmem; simp at hmem
  | cons hd rest ih =>
      intro out hnd hmem
      obtain ⟨k0, sv⟩ := hd
      rcases List.mem_cons.mp hmem with heq | hrest
      · injection heq with hk hv
        subst hk
        subst hv
        have hnotin : k ∉ rest.map Prod.fst := (List.nodup_cons.mp hnd).1
        simp [dmGo, dmGo_lookup_notin tf k rest _ hnotin, lookupKey_setKey]
      · have hk0 : k0 ∉ rest.map Prod.fst := (List.nodup_cons.mp hnd).1
        have hne : k ≠ k0 := by
          intro hh
          subst hh
          exact hk0 (List.mem_map.mpr ⟨(k, .vobj g), hrest, rfl⟩)
        have hnd' := (List.nodup_cons.mp hnd).2
        cases sv <;> simp [dmGo, ih _ hnd' hrest]

theorem dmGo_lookup_nonobj (tf : List (String × Value)) (k : String)
    (sv : Value) (hsv : sv.isPlainObj = false) :
    ∀ (sf out : List (String × Value)), (sf.map Prod.fst).Nodup →
      (k, sv) ∈ sf →
      lookupKey (dmGo tf out sf) k = some sv := by
  intro sf
  induction sf with
  | nil => intro out _ hmem; simp at hmem
  | cons hd rest ih =>
      intro out hnd hmem
      obtain ⟨k0, sv0⟩ := hd
      rcases List.mem_cons.mp hmem with heq | hrest
      · injection heq with hk hv
        subst hk
        subst hv
        have hnotin : k ∉ rest.map Prod.fst := (List.nodup_cons.mp hnd).1
        cases sv <;> simp_all [dmGo, dmGo_lookup_notin tf k rest _ hnotin,
          lookupKey_setKey, Value.isPlainObj]
      · have hk0 : k0 ∉ rest.map Prod.fst := (List.nodup_cons.mp hnd).1
        have hne : k ≠ k0 := by
          intro hh
          subst hh
          exact hk0 (List.mem_map.mpr ⟨(k, sv), hrest, rfl⟩)
        have hnd' := (List.nodup_cons.mp hnd).2
        cases sv0 <;> simp [dmGo, ih _ hnd' hrest]

/-! ## C4 — `merge` deep-merges key-by-key, non-destructively -/

/-- Claim C4: `merge` reads the current value at the path (any absent or
non-plain-object value acts as the empty object) and deep-merges the
partial into it: untouched sibling keys survive, source primitives and
arrays replace wholesale, nested plain objects merge recursively; in
particular merging `{b:3, c:4}` over `{a:1, b:2}` at
`plugins.entries.foo.config` yields `{a:1, b:3, c:4}`. -/
theorem mergePath_claim :
    (mergePath
        (.vobj [("plugins", .vobj [("entries", .vobj [("foo",
          .vobj [("config", .vobj [("a", .vnum 1), ("b", .vnum 2)])])])])])
        "plugins.entries.foo.config" (.vobj [("b", .vnum 3), ("c", .vnum 4)])
      = .vobj [("plugins", .vobj [("entries", .vobj [("foo",
          .vobj [("config",
            .vobj [("a", .vnum 1), ("b", .vnum 3), ("c", .vnum 4)])])])])])
    ∧ (∀ (doc : Value) (path : String) (v : Value),
        (∀ e, getPathSegs doc (splitPath path) = some e →
          (e.truthy && e.isPlainObj) = false) →
        mergePath doc path v = setPath doc path (deepMerge (.vobj []) v))
    ∧ (∀ (t : Value) (sf : List (String × Value)) (k : String),
        k ∉ sf.map Prod.fst →
        objGet (deepMerge t (.vobj sf)) k = objGet t k)
    ∧ (∀ (t : Value) (sf : List (String × Value)) (k : String) (sv : Value),
        (sf.map Prod.fst).Nodup → (k, sv) ∈ sf → sv.isPlainObj = false →
        objGet (deepMerge t (.vobj sf)) k = some sv)
    ∧ (∀ (t : Value) (sf : List (String × Value)) (k : String)
        (g : List (String × Value)),
        (sf.map Prod.fst).Nodup → (k, .vobj g) ∈ sf →
        objGet (deepMerge t (.vobj sf)) k
          = some (deepMerge (jsOrEmpty (objGet t k)) (.vobj g))) := by
  refine ⟨?_, ?_, ?_, ?_, ?_⟩
  · have hmerge : deepMerge (.vobj [("a", .vnum 1), ("b", .vnum 2)])
        (.vobj [("b", .vnum 3), ("c", .vnum 4)])
        = .vobj [("a", .vnum 1), ("b", .vnum 3), ("c", .vnum 4)] := by
      simp [deepMerge, Value.spreadFields, dmGo, setKey, lookupKey]
    have hbase : getPath
        (.vobj [("plugins", .vobj [("entries", .vobj [("foo",
          .vobj [("config", .vobj [("a", .vnum 1), ("b", .vnum 2)])])])])])
        "plugins.entries.foo.config" (some (.vobj []))
        = some (.vobj [("a", .vnum 1), ("b", .vnum 2)]) := rfl
    simp only [mergePath, hbase, Value.truthy, Value.isPlainObj,
      Bool.and_self, if_true, hmerge]
    rfl
  · intro doc path v h
    unfold mergePath getPath
    rcases hseg : getPathSegs doc (splitPath path) with - | e
    · simp [Value.truthy, Value.isPlainObj]
    · simp [h e hseg]
  · intro t sf k h
    exact dmGo_lookup_notin t.spreadFields k sf _ h
  · intro t sf k sv hnd hmem hsv
    exact dmGo_lookup_nonobj t.spreadFields k sv hsv sf _ hnd hmem
  · intro t sf k g hnd hmem
    exact dmGo_lookup_obj t.spreadFields k g sf _ hnd hmem

/-- Witness for C4: sibling-survival conjunct at a concrete merge. -/
theorem mergePath_claim_witness :
    objGet (deepMerge (.vobj [("a", .vnum 1)]) (.vobj [("b", .vnum 9)])) "a"
      = objGet (.vobj [("a", .vnum 1)]) "a" :=
  mergePath_claim.2.2.1 (.vobj [("a", .vnum 1)]) [("b", .vnum 9)] "a"
    (by simp)

/-! ## C5 — enabling a plugin -/

/-- Claim C5: `enablePlugin` deep-merges the candidate config over the
plugin's existing config (empty object if none) — candidate values win on
conflict — and writes `{enabled: true, config: merged}` to
`plugins.entries[name]`; enabling `memory` with `{apiKey:k1, model:m1}` and
again with `{model:m2}` leaves `{enabled:true,
config:{apiKey:k1, model:m2}}`; and a given slot is pointed at the plugin
name, silently displacing any previous occupant. -/
theorem enablePlugin_claim :
    (getPathSegs
        (enablePlugin
          (enablePlugin (.vobj []) "memory"
            (.vobj [("apiKey", .vstr "k1"), ("model", .vstr "m1")]) none)
          "memory" (.vobj [("model", .vstr "m2")]) none)
        ["plugins", "entries", "memory"]
      = some (.vobj [("enabled", .vbool true),
          ("config", .vobj [("apiKey", .vstr "k1"), ("model", .vstr "m2")])]))
    ∧ (∀ (df pf ef sf : List (String × Value)) (name : String) (cfg : Value),
        lookupKey df "plugins" = some (.vobj pf) →
        lookupKey pf "entries" = some (.vobj ef) →
        lookupKey pf "slots" = some (.vobj sf) →
        getPathSegs (enablePlugin (.vobj df) name cfg none)
            ["plugins", "entries", name]
          = some (.vobj [("enabled", .vbool true),
              ("config",
                deepMerge (jsOrEmpty (optChain (lookupKey ef name) "config")) cfg)]))
    ∧ (∀ (df pf ef sf : List (String × Value)) (name s : String) (cfg : Value),
        lookupKey df "plugins" = some (.vobj pf) →
        lookupKey pf "entries" = some (.vobj ef) →
        lookupKey pf "slots" = some (.vobj sf) →
        s ≠ "" →
        getPathSegs (enablePlugin (.vobj df) name cfg (some s))
            ["plugins", "entries", name]
          = some (.vobj [("enabled", .vbool true),
              ("config",
                deepMerge (jsOrEmpty (optChain (lookupKey ef name) "config")) cfg)])
        ∧ getPathSegs (enablePlugin (.vobj df) name cfg (some s))
            ["plugins", "slots", s] = some (.vstr name))
    ∧ (∀ (existing : Value) (cf : List (String × Value)) (k : String)
        (sv : Value),
        (cf.map Prod.fst).Nodup → (k, sv) ∈ cf → sv.isPlainObj = false →
        objGet (deepMerge existing (.vobj cf)) k = some sv) := by
  refine ⟨?_, ?_, ?_, ?_⟩
  · simp [enablePlugin, jsGet2, assignIn2, assignIn3, objAssign, objGet,
      optChain, jsOrEmpty, Value.truthyO, Value.truthy, Value.spreadFields,
      deepMerge, dmGo, setKey, lookupKey, getPathSegs, Value.typeofObject]
  · intro df pf ef sf name cfg h1 h2 h3
    simp [enablePlugin, jsGet2, assignIn2, assignIn3, objAssign, objGet,
      optChain, Value.truthyO, Value.truthy, Value.spreadFields,
      getPathSegs, Value.typeofObject, h1, h2, h3, lookupKey_setKey]
  · intro df pf ef sf name s cfg h1 h2 h3 hs
    constructor
    · simp [enablePlugin, jsGet2, assignIn2, assignIn3, objAssign, objGet,
        optChain, Value.truthyO, Value.truthy, Value.spreadFields,
        getPathSegs, Value.typeofObject, h1, h2, h3, hs,
        lookupKey_setKey]
    · simp [enablePlugin, jsGet2, assignIn2, assignIn3, objAssign, objGet,
        optChain, Value.truthyO, Value.truthy, Value.spreadFields,
        getPathSegs, Value.typeofObject, h1, h2, h3, hs,
        lookupKey_setKey]
  · intro existing cf k sv hnd hmem hsv
    exact dmGo_lookup_nonobj existing.spreadFields k sv hsv cf _ hnd hmem

/-- Witness for C5: the general entry-write conjunct at a concrete
document with an existing plugins structure. -/
theorem enablePlugin_claim_witness :
    getPathSegs
        (enablePlugin
          (.vobj [("plugins", .vobj [("entries", .vobj []), ("slots", .vobj [])])])
          "memory" (.vobj [("model", .vstr "m2")]) none)
        ["plugins", "entries", "memory"]
      = some (.vobj [("enabled", .vbool true),
          ("config",
            deepMerge (jsOrEmpty (optChain (lookupKey ([] : List (String × Value)) "memory") "config"))
              (.vobj [("model", .vstr "m2")]))]) :=
  enablePlugin_claim.2.1 [("plugins", .vobj [("entries", .vobj []), ("slots", .vobj [])])]
    [("entries", .vobj []), ("slots", .vobj [])] [] []
    "memory" (.vobj [("model", .vstr "m2")]) (by simp [lookupKey])
    (by simp [lookupKey, lookupKey_cons]) (by simp [lookupKey, lookupKey_cons])

/-! ## C8 — auto-fix allow-list behaviour -/

/-- Modelled from the spec: a result is reported in an auto-fix outcome
list when some outcome record names its check. -/
def specReportedIn (outcomes : List FixOutcome) (r : CheckResult) : Prop :=
  ∃ o ∈ outcomes, o.check = r.name

/-- Counterexample to C8: a failing result whose fix text is outside the
allow-list produces no outcome record at all — it is silently skipped, not
"reported as not auto-fixable". -/
theorem autoFix_counterexample :
    (autoFix (fun _ => true)
        [⟨"Gateway Health", "services", "fail", "gateway down",
          some "Run: openclaw gateway restart"⟩]).1 = []
    ∧ ¬ specReportedIn
        (autoFix (fun _ => true)
          [⟨"Gateway Health", "services", "fail", "gateway down",
            some "Run: openclaw gateway restart"⟩]).1
        ⟨"Gateway Health", "services", "fail", "gateway down",
          some "Run: openclaw gateway restart"⟩ := by
  have h : (autoFix (fun _ => true)
      [⟨"Gateway Health", "services", "fail", "gateway down",
        some "Run: openclaw gateway restart"⟩]).1 = [] := rfl
  refine ⟨h, ?_⟩
  rw [specReportedIn, h]
  simp

/-- Amended C8: `autoFix` handles each result independently (splitting the
result list splits the outcomes); results that are not `fail`/`warn`
produce nothing; a fix text outside the three allow-listed command shapes
is neither executed nor recorded; an allow-listed fix is executed with the
`'Run: '` head stripped, yielding exactly one outcome record — with
`success: true` and the stripped command on success, and with
`success: false` and the original fix text when the command throws, without
affecting any other result's fix. -/
theorem autoFix_amended (exec : String → Bool) :
    (∀ rs1 rs2 : List CheckResult,
      autoFix exec (rs1 ++ rs2)
        = ((autoFix exec rs1).1 ++ (autoFix exec rs2).1,
           (autoFix exec rs1).2 ++ (autoFix exec rs2).2))
    ∧ (∀ r : CheckResult, r.status ≠ "fail" → r.status ≠ "warn" →
        autoFix exec [r] = ([], []))
    ∧ (∀ (r : CheckResult) (f : String), r.fix = some f →
        strStartsWith f "Run: chmod" = false →
        strStartsWith f "Run: mkdir" = false →
        strStartsWith f "Run: launchctl load" = false →
        autoFix exec [r] = ([], []))
    ∧ (∀ (r : CheckResult) (f : String),
        (r.status = "fail" ∨ r.status = "warn") → r.fix = some f →
        (strStartsWith f "Run: chmod" = true
          ∨ strStartsWith f "Run: mkdir" = true
          ∨ strStartsWith f "Run: launchctl load" = true) →
        (exec (stripRunColon f) = true →
          autoFix exec [r]
            = ([⟨r.name, stripRunColon f, true⟩], [stripRunColon f]))
        ∧ (exec (stripRunColon f) = false →
          autoFix exec [r]
            = ([⟨r.name, f, false⟩], [stripRunColon f]))) := by
  refine ⟨?_, ?_, ?_, ?_⟩
  · intro rs1 rs2
    induction rs1 with
    | nil => simp [autoFix]
    | cons r rest ih => simp [autoFix, ih]
  · intro r h1 h2
    simp [autoFix, autoFixStep, h1, h2]
  · intro r f hf h1 h2 h3
    by_cases hst : r.status ≠ "fail" ∧ r.status ≠ "warn"
    · simp [autoFix, autoFixStep, hst]
    · by_cases hempty : f = ""
      · simp [autoFix, autoFixStep, hst, hf, hempty]
      · simp [autoFix, autoFixStep, hst, hf, hempty, h1, h2, h3]
  · intro r f hst hf hallow
    have hne : f ≠ "" := by
      rintro rfl
      rcases hallow with h | h | h <;> simp [strStartsWith, startsWithL] at h
    have hst' : ¬(r.status ≠ "fail" ∧ r.status ≠ "warn") := by
      rcases hst with h | h <;> simp [h]
    constructor
    · intro hexec
      rcases hallow with h | h | h <;>
        simp [autoFix, autoFixStep, hst', hf, hne, h, hexec]
    · intro hexec
      rcases hallow with h | h | h <;>
        simp [autoFix, autoFixStep, hst', hf, hne, h, hexec]

/-- Witness for the amended C8: a concrete allow-listed chmod fix whose
execution fails is recorded with `success: false`. -/
theorem autoFix_amended_witness :
    autoFix (fun _ => false)
        [⟨"Config Permissions", "security", "fail", "mode 644",
          some "Run: chmod 600 cfg"⟩]
      = ([⟨"Config Permissions", "Run: chmod 600 cfg", false⟩],
         [stripRunColon "Run: chmod 600 cfg"]) :=
  ((autoFix_amended (fun _ => false)).2.2.2
      ⟨"Config Permissions", "security", "fail", "mode 644",
        some "Run: chmod 600 cfg"⟩
      "Run: chmod 600 cfg" (Or.inl rfl) rfl (Or.inl (by decide))).2 rfl

/-! ## C7 — open DM policy caps the audit score -/

theorem checkDmExposure_possible (config : Value) :
    (checkDmExposure config).possible = 20 := by
  simp only [checkDmExposure]
  split <;> rfl

theorem checkGatewayAuth_bounds (config : Value) :
    (checkGatewayAuth config).earned ≤ 15
    ∧ (checkGatewayAuth config).possible = 15 := by
  simp only [checkGatewayAuth]
  split <;> exact ⟨by simp, rfl⟩

theorem checkConfigPerms_bounds (env : AuditEnv) :
    (checkConfigPerms env).earned ≤ (if env.win32 then 0 else 15)
    ∧ (checkConfigPerms env).possible = (if env.win32 then 0 else 15) := by
  simp only [checkConfigPerms]
  split
  · simp
  · split <;> simp

theorem checkAuthSource_bounds (config : Value) (env : AuditEnv) :
    (checkAuthSource config env).earned ≤ 10
    ∧ (checkAuthSource config env).possible = 10 := by
  simp only [checkAuthSource]
  split
  · exact ⟨by simp, rfl⟩
  · split <;> exact ⟨by simp, rfl⟩

theorem checkBindAddress_bounds (config : Value) :
    (checkBindAddress config).earned ≤ 15
    ∧ (checkBindAddress config).possible = 15 := by
  simp only [checkBindAddress]
  split
  · exact ⟨by simp, rfl⟩
  · split <;> exact ⟨by simp, rfl⟩

theorem checkTrustedProxies_bounds (config : Value) :
    (checkTrustedProxies config).earned ≤ 10
    ∧ (checkTrustedProxies config).possible = 10 := by
  simp only [checkTrustedProxies]
  split
  · exact ⟨by simp, rfl⟩
  · split <;> exact ⟨by simp, rfl⟩

theorem checkControlUi_bounds (config : Value) :
    (checkControlUi config).earned ≤ 10
    ∧ (checkControlUi config).possible = 10 := by
  simp only [checkControlUi]
  split <;> exact ⟨by simp, rfl⟩

theorem checkLogPerms_bounds (env : AuditEnv) :
    (checkLogPerms env).earned ≤ (if env.win32 then 0 else 10)
    ∧ (checkLogPerms env).possible = (if env.win32 then 0 else 10) := by
  simp only [checkLogPerms]
  split
  · simp
  · split
    · split <;> simp
    · simp

theorem checkWorkspacePerms_bounds (env : AuditEnv) :
    (checkWorkspacePerms env).earned ≤ (if env.win32 then 0 else 5)
    ∧ (checkWorkspacePerms env).possible = (if env.win32 then 0 else 5) := by
  simp only [checkWorkspacePerms]
  split
  · simp
  · split
    · split <;> simp
    · simp

theorem auditMaxScore_eq (config : Value) (env : AuditEnv) :
    (runSecurityAudit config env).maxScore = if env.win32 then 80 else 110 := by
  have h1 := checkDmExposure_possible config
  have h2 := (checkGatewayAuth_bounds config).2
  have h3 := (checkConfigPerms_bounds env).2
  have h4 := (checkAuthSource_bounds config env).2
  have h5 := (checkBindAddress_bounds config).2
  have h6 := (checkTrustedProxies_bounds config).2
  have h7 := (checkControlUi_bounds config).2
  have h8 := (checkLogPerms_bounds env).2
  have h9 := (checkWorkspacePerms_bounds env).2
  simp only [runSecurityAudit, auditContributions, List.map_cons, List.map_nil,
    List.sum_cons, List.sum_nil, h1, h2, h3, h4, h5, h6, h7, h8, h9]
  cases env.win32 <;> simp

/-- Claim C7: whenever some channel's DM policy is the string `open`, the
DM-exposure check earns 0 of its 20 points and a high-severity
`Open DM policy detected` finding is recorded, so the percentage score is
at most `100 − 100·20/maxScore` — the DM check's share; with no open
policy the check earns its full 20 points. -/
theorem auditDmPolicy_claim (config : Value) (env : AuditEnv) :
    ((∃ p ∈ getDmPolicies config, p.2 = .vstr "open") →
      (checkDmExposure config).earned = 0
      ∧ (∃ fnd ∈ (runSecurityAudit config env).issues,
          fnd.severity = "high" ∧ fnd.title = "Open DM policy detected")
      ∧ auditPercentage (runSecurityAudit config env)
          ≤ 100 - ((20 : ℚ) / ((runSecurityAudit config env).maxScore : ℚ)) * 100)
    ∧ ((∀ p ∈ getDmPolicies config, p.2 ≠ .vstr "open") →
      (checkDmExposure config).earned = 20
      ∧ (checkDmExposure config).possible = 20) := by
  constructor
  · rintro ⟨p, hp, hpv⟩
    have hmem : p ∈ (getDmPolicies config).filter
        (fun q => strictEqStr (some q.2) "open") :=
      List.mem_filter.mpr ⟨hp, by simp [strictEqStr, hpv]⟩
    have hne : ((getDmPolicies config).filter
        (fun q => strictEqStr (some q.2) "open")).isEmpty = false := by
      rcases hfilter : (getDmPolicies config).filter
          (fun q => strictEqStr (some q.2) "open") with - | ⟨q, rest⟩
      · rw [hfilter] at hmem; simp at hmem
      · rw [hfilter]; rfl
    have hdm : checkDmExposure config
        = ⟨0, 20, [⟨"high", "Open DM policy detected", false⟩], [], []⟩ := by
      simp [checkDmExposure, hne]
    refine ⟨by simp [hdm], ?_, ?_⟩
    · refine ⟨⟨"high", "Open DM policy detected", false⟩, ?_, rfl, rfl⟩
      simp [runSecurityAudit, auditContributions, hdm]
    · have hscore : (runSecurityAudit config env).score
          = (checkDmExposure config).earned
            + ((checkGatewayAuth config).earned
            + ((checkConfigPerms env).earned
            + ((checkAuthSource config env).earned
            + ((checkBindAddress config).earned
            + ((checkTrustedProxies config).earned
            + ((checkControlUi config).earned
            + ((checkLogPerms env).earned
            + ((checkWorkspacePerms env).earned + 0)))))))) := by
        simp [runSecurityAudit, auditContributions]
      have hb2 := (checkGatewayAuth_bounds config).1
      have hb3 := (checkConfigPerms_bounds env).1
      have hb4 := (checkAuthSource_bounds config env).1
      have hb5 := (checkBindAddress_bounds config).1
      have hb6 := (checkTrustedProxies_bounds config).1
      have hb7 := (checkControlUi_bounds config).1
      have hb8 := (checkLogPerms_bounds env).1
      have hb9 := (checkWorkspacePerms_bounds env).1
      have hmax := auditMaxScore_eq config env
      have he1 : (checkDmExposure config).earned = 0 := by simp [hdm]
      have hsle : (runSecurityAudit config env).score
          ≤ (runSecurityAudit config env).maxScore - 20 := by
        rw [hscore, hmax, he1]
        cases hw : env.win32 <;> simp [hw] at hb3 hb8 hb9 ⊢ <;> omega
      have h20 : 20 ≤ (runSecurityAudit config env).maxScore := by
        rw [hmax]; cases env.win32 <;> simp
      have hmpos : (0 : ℚ) < ((runSecurityAudit config env).maxScore : ℚ) := by
        have : 0 < (runSecurityAudit config env).maxScore := by omega
        exact_mod_cast this
      have hsq : ((runSecurityAudit config env).score : ℚ)
          ≤ ((runSecurityAudit config env).maxScore : ℚ) - 20 := by
        have := Nat.cast_sub h20 (R := ℚ)
        have hq : ((runSecurityAudit config env).score : ℚ)
            ≤ (((runSecurityAudit config env).maxScore - 20 : Nat) : ℚ) := by
          exact_mod_cast hsle
        rw [this] at hq
        simpa using hq
      rw [auditPercentage, div_mul_eq_mul_div, div_le_iff₀ hmpos]
      have hr : (100 - 20 / ((runSecurityAudit config env).maxScore : ℚ) * 100)
            * ((runSecurityAudit config env).maxScore : ℚ)
          = 100 * ((runSecurityAudit config env).maxScore : ℚ) - 2000 := by
        field_simp
        ring
      rw [hr]
      nlinarith [hsq]
  · intro h
    have hemp : ((getDmPolicies config).filter
        (fun q => strictEqStr (some q.2) "open")) = [] := by
      rcases hfilter : (getDmPolicies config).filter
          (fun q => strictEqStr (some q.2) "open") with - | ⟨q, rest⟩
      · exact hfilter
      · exfalso
        have hq : q ∈ (getDmPolicies config).filter
            (fun p => strictEqStr (some p.2) "open") := by
          rw [hfilter]; simp
        have hqm := List.mem_filter.mp hq
        have hqs : strictEqStr (some q.2) "open" = true := by
          simpa using hqm.2
        rcases hv : q.2 with - | b | n | s | a | o <;>
          simp [strictEqStr, hv] at hqs
        exact h q hqm.1 (by rw [hv, hqs])
    simp [checkDmExposure, hemp]

/-- Witness for C7: a config with one open Telegram DM policy on a Unix
host, and a config with a pairing policy. -/
theorem auditDmPolicy_claim_witness :
    ((checkDmExposure (.vobj [("channels", .vobj [("telegram",
        .vobj [("dmPolicy", .vstr "open")])])])).earned = 0
      ∧ (∃ fnd ∈ (runSecurityAudit
            (.vobj [("channels", .vobj [("telegram",
              .vobj [("dmPolicy", .vstr "open")])])])
            ⟨false, true, true, true, true, true, true⟩).issues,
          fnd.severity = "high" ∧ fnd.title = "Open DM policy detected")
      ∧ auditPercentage (runSecurityAudit
            (.vobj [("channels", .vobj [("telegram",
              .vobj [("dmPolicy", .vstr "open")])])])
            ⟨false, true, true, true, true, true, true⟩)
          ≤ 100 - ((20 : ℚ) / (((runSecurityAudit
              (.vobj [("channels", .vobj [("telegram",
                .vobj [("dmPolicy", .vstr "open")])])])
              ⟨false, true, true, true, true, true, true⟩).maxScore : ℚ))) * 100)
    ∧ (checkDmExposure (.vobj [("channels", .vobj [("telegram",
        .vobj [("dmPolicy", .vstr "pairing")])])])).earned = 20 := by
  constructor
  · have hdm : getDmPolicies (.vobj [("channels", .vobj [("telegram",
        .vobj [("dmPolicy", .vstr "open")])])])
        = [("telegram", .vstr "open")] := rfl
    exact (auditDmPolicy_claim
      (.vobj [("channels", .vobj [("telegram",
        .vobj [("dmPolicy", .vstr "open")])])])
      ⟨false, true, true, true, true, true, true⟩).1
      ⟨("telegram", .vstr "open"), by rw [hdm]; exact List.mem_singleton.mpr rfl,
        rfl⟩
  · have hdm2 : getDmPolicies (.vobj [("channels", .vobj [("telegram",
        .vobj [("dmPolicy", .vstr "pairing")])])])
        = [("telegram", .vstr "pairing")] := rfl
    refine ((auditDmPolicy_claim
      (.vobj [("channels", .vobj [("telegram",
        .vobj [("dmPolicy", .vstr "pairing")])])])
      ⟨false, true, true, true, true, true, true⟩).2 ?_).1
    intro p hp
    rw [hdm2] at hp
    simp only [List.mem_singleton] at hp
    subst hp
    simp

/-! ## C6 — security-profile DM-policy effects -/

theorem getPathSegs_vobj_cons (l : List (String × Value)) (k : String)
    (rest : List String) :
    getPathSegs (.vobj l) (k :: rest)
      = match lookupKey l k with
        | some w => getPathSegs w rest
        | none => none := by
  simp [getPathSegs, Value.truthy, Value.typeofObject, Value.spreadFields]

theorem getPathSegs_vobj_single (l : List (String × Value)) (k : String) :
    getPathSegs (.vobj l) [k] = lookupKey l k := by
  rw [getPathSegs_vobj_cons]
  cases h : lookupKey l k <;> simp [getPathSegs]

theorem setPathSegs_three (d c : List (String × Value)) (a p : String)
    (x : Value) (hd : lookupKey d "channels" = some (.vobj c)) :
    setPathSegs (.vobj d) ["channels", a, p] x
      = .vobj (setKey d "channels" (.vobj (setKey c a
          (setPathSegs (setPathChild (lookupKey c a)) [p] x)))) := by
  simp [setPathSegs, objGet, Value.spreadFields, hd, setPathChild,
    Value.truthy, Value.isPlainObj, objAssign]

theorem pairingOnStep_other (d c cf : List (String × Value)) (a ch : String)
    (hne : a ≠ ch)
    (hd : lookupKey d "channels" = some (.vobj c))
    (hc : lookupKey c ch = some (.vobj cf))
    (hs2 : splitPath ("channels." ++ a ++ ".dmPolicy")
      = ["channels", a, "dmPolicy"]) :
    ∃ d' c', pairingOnStep (.vobj d) a = .vobj d'
      ∧ lookupKey d' "channels" = some (.vobj c')
      ∧ lookupKey c' ch = some (.vobj cf) := by
  cases hcc : getPath (.vobj d) ("channels." ++ a) none with
  | none =>
      refine ⟨d, c, ?_, hd, hc⟩
      simp only [pairingOnStep, hcc]
  | some cc =>
      by_cases hguard : (cc.truthy && cc.typeofObject) = true
      · by_cases hcond :
            (!Value.truthyO (getPath (.vobj d)
                ("channels." ++ a ++ ".dmPolicy") none)
              || strictEqStr (getPath (.vobj d)
                ("channels." ++ a ++ ".dmPolicy") none) "open") = true
        · have hstep : pairingOnStep (.vobj d) a
              = setPath (.vobj d) ("channels." ++ a ++ ".dmPolicy")
                  (.vstr "pairing") := by
            simp only [pairingOnStep, hcc, hguard, hcond, if_true]
          rw [hstep, setPath, hs2, setPathSegs_three d c a "dmPolicy" _ hd]
          refine ⟨setKey d "channels" (.vobj (setKey c a
              (setPathSegs (setPathChild (lookupKey c a)) ["dmPolicy"]
                (.vstr "pairing")))),
            setKey c a (setPathSegs (setPathChild (lookupKey c a)) ["dmPolicy"]
              (.vstr "pairing")), rfl, ?_, ?_⟩
          · rw [lookupKey_setKey]
            simp
          · rw [lookupKey_setKey]
            simp [hne, Ne.symm hne, hc]
        · refine ⟨d, c, ?_, hd, hc⟩
          simp only [pairingOnStep, hcc, hguard, hcond, if_true, if_false,
            Bool.not_eq_true]
          simp only [Bool.not_eq_true] at hcond
          simp [hcond]
      · refine ⟨d, c, ?_, hd, hc⟩
        simp only [Bool.not_eq_true] at hguard
        simp only [pairingOnStep, hcc, hguard]
        simp

theorem pairingOffStep_other (d c cf : List (String × Value)) (a ch : String)
    (hne : a ≠ ch)
    (hd : lookupKey d "channels" = some (.vobj c))
    (hc : lookupKey c ch = some (.vobj cf))
    (hs2 : splitPath ("channels." ++ a ++ ".dmPolicy")
      = ["channels", a, "dmPolicy"]) :
    ∃ d' c', pairingOffStep (.vobj d) a = .vobj d'
      ∧ lookupKey d' "channels" = some (.vobj c')
      ∧ lookupKey c' ch = some (.vobj cf) := by
  cases hcc : getPath (.vobj d) ("channels." ++ a) none with
  | none =>
      refine ⟨d, c, ?_, hd, hc⟩
      simp only [pairingOffStep, hcc]
  | some cc =>
      by_cases hguard : (cc.truthy && cc.typeofObject) = true
      · by_cases hcond :
            (!Value.truthyO (getPath (.vobj d)
                ("channels." ++ a ++ ".dmPolicy") none)) = true
        · have hstep : pairingOffStep (.vobj d) a
              = setPath (.vobj d) ("channels." ++ a ++ ".dmPolicy")
                  (.vstr "open") := by
            simp only [pairingOffStep, hcc, hguard, hcond, if_true]
          rw [hstep, setPath, hs2, setPathSegs_three d c a "dmPolicy" _ hd]
          refine ⟨setKey d "channels" (.vobj (setKey c a
              (setPathSegs (setPathChild (lookupKey c a)) ["dmPolicy"]
                (.vstr "open")))),
            setKey c a (setPathSegs (setPathChild (lookupKey c a)) ["dmPolicy"]
              (.vstr "open")), rfl, ?_, ?_⟩
          · rw [lookupKey_setKey]
            simp
          · rw [lookupKey_setKey]
            simp [hne, Ne.symm hne, hc]
        · refine ⟨d, c, ?_, hd, hc⟩
          simp only [Bool.not_eq_true] at hcond
          simp only [pairingOffStep, hcc, hguard, if_true]
          simp [hcond]
      · refine ⟨d, c, ?_, hd, hc⟩
        simp only [Bool.not_eq_true] at hguard
        simp only [pairingOffStep, hcc, hguard]
        simp

theorem pairingOnStep_self (d c cf : List (String × Value)) (ch : String)
    (hd : lookupKey d "channels" = some (.vobj c))
    (hc : lookupKey c ch = some (.vobj cf))
    (hs1 : splitPath ("channels." ++ ch) = ["channels", ch])
    (hs2 : splitPath ("channels." ++ ch ++ ".dmPolicy")
      = ["channels", ch, "dmPolicy"]) :
    ∃ d' c' cf', pairingOnStep (.vobj d) ch = .vobj d'
      ∧ lookupKey d' "channels" = some (.vobj c')
      ∧ lookupKey c' ch = some (.vobj cf')
      ∧ lookupKey cf' "dmPolicy"
          = (if (!Value.truthyO (lookupKey cf "dmPolicy")
                || strictEqStr (lookupKey cf "dmPolicy") "open") = true
             then some (Value.vstr "pairing") else lookupKey cf "dmPolicy") := by
  have hcc : getPath (.vobj d) ("channels." ++ ch) none = some (.vobj cf) := by
    have hseg : getPathSegs (.vobj d) (splitPath ("channels." ++ ch))
        = some (.vobj cf) := by
      rw [hs1]
      simp [getPathSegs, Value.spreadFields, Value.truthy,
        Value.typeofObject, hd, hc]
    simp [getPath, hseg]
  have hcur : getPath (.vobj d) ("channels." ++ ch ++ ".dmPolicy") none
      = lookupKey cf "dmPolicy" := by
    have hseg2 : getPathSegs (.vobj d)
        (splitPath ("channels." ++ ch ++ ".dmPolicy"))
        = lookupKey cf "dmPolicy" := by
      rw [hs2]
      simp only [getPathSegs, Value.spreadFields, Value.truthy,
        Value.typeofObject, hd, hc]
      cases h : lookupKey cf "dmPolicy" <;> simp [getPathSegs]
    simp only [getPath, hseg2]
    cases h : lookupKey cf "dmPolicy" <;> simp
  by_cases hb : (!Value.truthyO (lookupKey cf "dmPolicy")
      || strictEqStr (lookupKey cf "dmPolicy") "open") = true
  · have hstep : pairingOnStep (.vobj d) ch
        = setPath (.vobj d) ("channels." ++ ch ++ ".dmPolicy")
            (.vstr "pairing") := by
      simp only [pairingOnStep, hcc, hcur, hb, if_true, Value.truthy,
        Value.typeofObject, Bool.and_self]
    have hfinal : pairingOnStep (.vobj d) ch
        = .vobj (setKey d "channels" (.vobj (setKey c ch
            (.vobj (setKey cf "dmPolicy" (.vstr "pairing")))))) := by
      rw [hstep, setPath, hs2, setPathSegs_three d c ch "dmPolicy" _ hd, hc]
      simp [setPathChild, Value.truthy, Value.isPlainObj, setPathSegs,
        objAssign]
    refine ⟨setKey d "channels" (.vobj (setKey c ch
        (.vobj (setKey cf "dmPolicy" (.vstr "pairing"))))),
      setKey c ch (.vobj (setKey cf "dmPolicy" (.vstr "pairing"))),
      setKey cf "dmPolicy" (.vstr "pairing"), hfinal, ?_, ?_, ?_⟩
    · rw [lookupKey_setKey]
      simp
    · rw [lookupKey_setKey]
      simp
    · rw [lookupKey_setKey]
      simp [hb]
  · refine ⟨d, c, cf, ?_, hd, hc, ?_⟩
    · have hbf : (!Value.truthyO (lookupKey cf "dmPolicy")
          || strictEqStr (lookupKey cf "dmPolicy") "open") = false := by
        simpa using hb
      simp [pairingOnStep, hcc, hcur, hbf, Value.truthy, Value.typeofObject]
    · simp [hb]

theorem pairingOffStep_self (d c cf : List (String × Value)) (ch : String)
    (hd : lookupKey d "channels" = some (.vobj c))
    (hc : lookupKey c ch = some (.vobj cf))
    (hs1 : splitPath ("channels." ++ ch) = ["channels", ch])
    (hs2 : splitPath ("channels." ++ ch ++ ".dmPolicy")
      = ["channels", ch, "dmPolicy"]) :
    ∃ d' c' cf', pairingOffStep (.vobj d) ch = .vobj d'
      ∧ lookupKey d' "channels" = some (.vobj c')
      ∧ lookupKey c' ch = some (.vobj cf')
      ∧ lookupKey cf' "dmPolicy"
          = (if (!Value.truthyO (lookupKey cf "dmPolicy")) = true
             then some (Value.vstr "open") else lookupKey cf "dmPolicy") := by
  have hcc : getPath (.vobj d) ("channels." ++ ch) none = some (.vobj cf) := by
    have hseg : getPathSegs (.vobj d) (splitPath ("channels." ++ ch))
        = some (.vobj cf) := by
      rw [hs1]
      simp [getPathSegs, Value.spreadFields, Value.truthy,
        Value.typeofObject, hd, hc]
    simp [getPath, hseg]
  have hcur : getPath (.vobj d) ("channels." ++ ch ++ ".dmPolicy") none
      = lookupKey cf "dmPolicy" := by
    have hseg2 : getPathSegs (.vobj d)
        (splitPath ("channels." ++ ch ++ ".dmPolicy"))
        = lookupKey cf "dmPolicy" := by
      rw [hs2]
      simp only [getPathSegs, Value.spreadFields, Value.truthy,
        Value.typeofObject, hd, hc]
      cases h : lookupKey cf "dmPolicy" <;> simp [getPathSegs]
    simp only [getPath, hseg2]
    cases h : lookupKey cf "dmPolicy" <;> simp
  by_cases hb : (!Value.truthyO (lookupKey cf "dmPolicy")) = true
  · have hstep : pairingOffStep (.vobj d) ch
        = setPath (.vobj d) ("channels." ++ ch ++ ".dmPolicy")
            (.vstr "open") := by
      simp only [pairingOffStep, hcc, hcur, hb, if_true, Value.truthy,
        Value.typeofObject, Bool.and_self]
    have hfinal : pairingOffStep (.vobj d) ch
        = .vobj (setKey d "channels" (.vobj (setKey c ch
            (.vobj (setKey cf "dmPolicy" (.vstr "open")))))) := by
      rw [hstep, setPath, hs2, setPathSegs_three d c ch "dmPolicy" _ hd, hc]
      simp [setPathChild, Value.truthy, Value.isPlainObj, setPathSegs,
        objAssign]
    refine ⟨setKey d "channels" (.vobj (setKey c ch
        (.vobj (setKey cf "dmPolicy" (.vstr "open"))))),
      setKey c ch (.vobj (setKey cf "dmPolicy" (.vstr "open"))),
      setKey cf "dmPolicy" (.vstr "open"), hfinal, ?_, ?_, ?_⟩
    · rw [lookupKey_setKey]
      simp
    · rw [lookupKey_setKey]
      simp
    · rw [lookupKey_setKey]
      simp [hb]
  · refine ⟨d, c, cf, ?_, hd, hc, ?_⟩
    · have hbf : (!Value.truthyO (lookupKey cf "dmPolicy")) = false := by
        simpa using hb
      simp [pairingOffStep, hcc, hcur, hbf, Value.truthy, Value.typeofObject]
    · simp [hb]

theorem pairingOn_fold (chans : List String) :
    ∀ (d c cf : List (String × Value)) (ch : String),
      chans.Nodup →
      (∀ a ∈ chans, splitPath ("channels." ++ a) = ["channels", a]
        ∧ splitPath ("channels." ++ a ++ ".dmPolicy")
            = ["channels", a, "dmPolicy"]) →
      lookupKey d "channels" = some (.vobj c) →
      lookupKey c ch = some (.vobj cf) →
      (ch ∈ chans →
        ∃ d' c' cf', List.foldl pairingOnStep (.vobj d) chans = .vobj d'
          ∧ lookupKey d' "channels" = some (.vobj c')
          ∧ lookupKey c' ch = some (.vobj cf')
          ∧ lookupKey cf' "dmPolicy"
              = (if (!Value.truthyO (lookupKey cf "dmPolicy")
                    || strictEqStr (lookupKey cf "dmPolicy") "open") = true
                 then some (Value.vstr "pairing")
                 else lookupKey cf "dmPolicy"))
      ∧ (ch ∉ chans →
        ∃ d' c', List.foldl pairingOnStep (.vobj d) chans = .vobj d'
          ∧ lookupKey d' "channels" = some (.vobj c')
          ∧ lookupKey c' ch = some (.vobj cf)) := by
  induction chans with
  | nil =>
      intro d c cf ch _ _ hd hc
      exact ⟨fun h => absurd h (List.not_mem_nil _),
        fun _ => ⟨d, c, rfl, hd, hc⟩⟩
  | cons a rest ih =>
      intro d c cf ch hnd hsplit hd hc
      have hndr := (List.nodup_cons.mp hnd).2
      have hanotin := (List.nodup_cons.mp hnd).1
      have hsplitr : ∀ b ∈ rest, splitPath ("channels." ++ b)
          = ["channels", b]
          ∧ splitPath ("channels." ++ b ++ ".dmPolicy")
              = ["channels", b, "dmPolicy"] :=
        fun b hb => hsplit b (List.mem_cons_of_mem _ hb)
      have hsa := hsplit a (List.mem_cons_self _ _)
      constructor
      · intro hmem
        rcases List.mem_cons.mp hmem with rfl | hmemr
        · obtain ⟨d1, c1, cf1, hstep, hd1, hc1, hp1⟩ :=
            pairingOnStep_self d c cf ch hd hc hsa.1 hsa.2
          obtain ⟨-, hrest⟩ := ih d1 c1 cf1 ch hndr hsplitr hd1 hc1
          obtain ⟨d2, c2, hfold, hd2, hc2⟩ := hrest hanotin
          refine ⟨d2, c2, cf1, ?_, hd2, hc2, hp1⟩
          simp [List.foldl_cons, hstep, hfold]
        · have hne : a ≠ ch := by
            intro hh
            exact hanotin (hh ▸ hmemr)
          obtain ⟨d1, c1, hstep, hd1, hc1⟩ :=
            pairingOnStep_other d c cf a ch hne hd hc hsa.2
          obtain ⟨hin, -⟩ := ih d1 c1 cf ch hndr hsplitr hd1 hc1
          obtain ⟨d2, c2, cf2, hfold, hd2, hc2, hp2⟩ := hin hmemr
          refine ⟨d2, c2, cf2, ?_, hd2, hc2, hp2⟩
          simp [List.foldl_cons, hstep, hfold]
      · intro hnotmem
        have hne : a ≠ ch := by
          intro hh
          exact hnotmem (hh ▸ List.mem_cons_self a rest)
        have hnr : ch ∉ rest := fun hh => hnotmem (List.mem_cons_of_mem _ hh)
        obtain ⟨d1, c1, hstep, hd1, hc1⟩ :=
          pairingOnStep_other d c cf a ch hne hd hc hsa.2
        obtain ⟨-, hrest⟩ := ih d1 c1 cf ch hndr hsplitr hd1 hc1
        obtain ⟨d2, c2, hfold, hd2, hc2⟩ := hrest hnr
        refine ⟨d2, c2, ?_, hd2, hc2⟩
        simp [List.foldl_cons, hstep, hfold]

theorem pairingOff_fold (chans : List String) :
    ∀ (d c cf : List (String × Value)) (ch : String),
      chans.Nodup →
      (∀ a ∈ chans, splitPath ("channels." ++ a) = ["channels", a]
        ∧ splitPath ("channels." ++ a ++ ".dmPolicy")
            = ["channels", a, "dmPolicy"]) →
      lookupKey d "channels" = some (.vobj c) →
      lookupKey c ch = some (.vobj cf) →
      (ch ∈ chans →
        ∃ d' c' cf', List.foldl pairingOffStep (.vobj d) chans = .vobj d'
          ∧ lookupKey d' "channels" = some (.vobj c')
          ∧ lookupKey c' ch = some (.vobj cf')
          ∧ lookupKey cf' "dmPolicy"
              = (if (!Value.truthyO (lookupKey cf "dmPolicy")) = true
                 then some (Value.vstr "open")
                 else lookupKey cf "dmPolicy"))
      ∧ (ch ∉ chans →
        ∃ d' c', List.foldl pairingOffStep (.vobj d) chans = .vobj d'
          ∧ lookupKey d' "channels" = some (.vobj c')
          ∧ lookupKey c' ch = some (.vobj cf)) := by
  induction chans with
  | nil =>
      intro d c cf ch _ _ hd hc
      exact ⟨fun h => absurd h (List.not_mem_nil _),
        fun _ => ⟨d, c, rfl, hd, hc⟩⟩
  | cons a rest ih =>
      intro d c cf ch hnd hsplit hd hc
      have hndr := (List.nodup_cons.mp hnd).2
      have hanotin := (List.nodup_cons.mp hnd).1
      have hsplitr : ∀ b ∈ rest, splitPath ("channels." ++ b)
          = ["channels", b]
          ∧ splitPath ("channels." ++ b ++ ".dmPolicy")
              = ["channels", b, "dmPolicy"] :=
        fun b hb => hsplit b (List.mem_cons_of_mem _ hb)
      have hsa := hsplit a (List.mem_cons_self _ _)
      constructor
      · intro hmem
        rcases List.mem_cons.mp hmem with rfl | hmemr
        · obtain ⟨d1, c1, cf1, hstep, hd1, hc1, hp1⟩ :=
            pairingOffStep_self d c cf ch hd hc hsa.1 hsa.2
          obtain ⟨-, hrest⟩ := ih d1 c1 cf1 ch hndr hsplitr hd1 hc1
          obtain ⟨d2, c2, hfold, hd2, hc2⟩ := hrest hanotin
          refine ⟨d2, c2, cf1, ?_, hd2, hc2, hp1⟩
          simp [List.foldl_cons, hstep, hfold]
        · have hne : a ≠ ch := by
            intro hh
            exact hanotin (hh ▸ hmemr)
          obtain ⟨d1, c1, hstep, hd1, hc1⟩ :=
            pairingOffStep_other d c cf a ch hne hd hc hsa.2
          obtain ⟨hin, -⟩ := ih d1 c1 cf ch hndr hsplitr hd1 hc1
          obtain ⟨d2, c2, cf2, hfold, hd2, hc2, hp2⟩ := hin hmemr
          refine ⟨d2, c2, cf2, ?_, hd2, hc2, hp2⟩
          simp [List.foldl_cons, hstep, hfold]
      · intro hnotmem
        have hne : a ≠ ch := by
          intro hh
          exact hnotmem (hh ▸ List.mem_cons_self a rest)
        have hnr : ch ∉ rest := fun hh => hnotmem (List.mem_cons_of_mem _ hh)
        obtain ⟨d1, c1, hstep, hd1, hc1⟩ :=
          pairingOffStep_other d c cf a ch hne hd hc hsa.2
        obtain ⟨-, hrest⟩ := ih d1 c1 cf ch hndr hsplitr hd1 hc1
        obtain ⟨d2, c2, hfold, hd2, hc2⟩ := hrest hnr
        refine ⟨d2, c2, ?_, hd2, hc2⟩
        simp [List.foldl_cons, hstep, hfold]

theorem mergePath_eq (v : Value) (path : String) (x : Value) :
    mergePath v path x
      = setPath v path
          (deepMerge (setPathChild (getPath v path (some (.vobj [])))) x) := rfl

theorem mergePath_security (df : List (String × Value)) (x : Value) :
    mergePath (.vobj df) "security" x
      = .vobj (setKey df "security"
          (deepMerge (setPathChild
            (getPath (.vobj df) "security" (some (.vobj [])))) x)) := by
  rw [mergePath_eq]
  rfl

theorem setPath_gatewayProxies (d1 : List (String × Value)) (val : Value) :
    setPath (.vobj d1) "gateway.trustedProxies" val
      = .vobj (setKey d1 "gateway"
          (setPathSegs (setPathChild (lookupKey d1 "gateway"))
            ["trustedProxies"] val)) := rfl

theorem applyProfileMutator_standard (df : List (String × Value)) :
    applyProfileMutator standardSettings (.vobj df)
      = List.foldl pairingOnStep
          (setPath (mergePath (.vobj df) "security" standardSettings)
            "gateway.trustedProxies" (.varr [.vstr "127.0.0.1", .vstr "::1"]))
          profileChannels := rfl

theorem applyProfileMutator_hardened (df : List (String × Value)) :
    applyProfileMutator hardenedSettings (.vobj df)
      = List.foldl pairingOnStep
          (setPath (mergePath (.vobj df) "security" hardenedSettings)
            "gateway.trustedProxies" (.varr [.vstr "127.0.0.1", .vstr "::1"]))
          profileChannels := rfl

theorem applyProfileMutator_minimal (df : List (String × Value)) :
    applyProfileMutator minimalSettings (.vobj df)
      = List.foldl pairingOffStep
          (setPath (mergePath (.vobj df) "security" minimalSettings)
            "gateway.trustedProxies" (.varr []))
          profileChannels := rfl

/-- Counterexample to C6: the channel sub-tree `channels.signal` is present
with `dmPolicy: "open"`, yet applying the `standard` profile leaves it
`"open"` — `signal` is not in the hard-coded channel list the profile
walks, so the claim's "every channel sub-tree present in the document" is
false. -/
theorem applyProfile_counterexample :
    getPathSegs
        (.vobj [("channels", .vobj [("signal",
          .vobj [("dmPolicy", .vstr "open")])])])
        ["channels", "signal", "dmPolicy"] = some (.vstr "open")
    ∧ getPathSegs
        (applyProfileMutator standardSettings
          (.vobj [("channels", .vobj [("signal",
            .vobj [("dmPolicy", .vstr "open")])])]))
        ["channels", "signal", "dmPolicy"] = some (.vstr "open")
    ∧ some (Value.vstr "open") ≠ some (Value.vstr "pairing") := by
  refine ⟨rfl, ?_, by simp⟩
  rw [applyProfileMutator_standard, mergePath_security]
  have hchild : setPathChild (getPath
      (.vobj [("channels", .vobj [("signal",
        .vobj [("dmPolicy", .vstr "open")])])])
      "security" (some (.vobj []))) = .vobj [] := rfl
  have hstd : deepMerge (.vobj []) standardSettings = standardSettings := by
    simp [deepMerge, standardSettings, Value.spreadFields, dmGo, setKey,
      lookupKey]
  rw [hchild, hstd]
  rfl


theorem lookupKey_setKey_other {α : Type} (fs : List (String × α))
    (k k' : String) (x : α) (h : k' ≠ k) :
    lookupKey (setKey fs k x) k' = lookupKey fs k' := by
  rw [lookupKey_setKey, if_neg h]

theorem foldOn_view (d2 chf cf : List (String × Value)) (ch : String)
    (hch : ch ∈ profileChannels)
    (hd2 : lookupKey d2 "channels" = some (.vobj chf))
    (hcc : lookupKey chf ch = some (.vobj cf)) :
    getPathSegs (List.foldl pairingOnStep (.vobj d2) profileChannels)
        ["channels", ch, "dmPolicy"]
      = if (!Value.truthyO (lookupKey cf "dmPolicy")
            || strictEqStr (lookupKey cf "dmPolicy") "open") = true
        then some (.vstr "pairing") else lookupKey cf "dmPolicy" := by
  have hndp : profileChannels.Nodup := by decide
  have hsplitAll : ∀ a ∈ profileChannels,
      splitPath ("channels." ++ a) = ["channels", a]
      ∧ splitPath ("channels." ++ a ++ ".dmPolicy")
          = ["channels", a, "dmPolicy"] := by
    intro a ha
    simp only [profileChannels, List.mem_cons, List.not_mem_nil,
      or_false] at ha
    rcases ha with rfl | rfl | rfl | rfl | rfl <;> exact ⟨rfl, rfl⟩
  obtain ⟨hin, -⟩ :=
    pairingOn_fold profileChannels d2 chf cf ch hndp hsplitAll hd2 hcc
  obtain ⟨d', c', cf', hfold, hd', hc', hp'⟩ := hin hch
  rw [hfold]
  simp [getPathSegs_vobj_cons, hd', hc', getPathSegs_vobj_single, hp']
  split
  · rename_i o v heq
    rw [show getPathSegs v [] = some v from rfl]
    exact heq.symm
  · rename_i o heq
    exact heq.symm

theorem foldOff_view (d2 chf cf : List (String × Value)) (ch : String)
    (hch : ch ∈ profileChannels)
    (hd2 : lookupKey d2 "channels" = some (.vobj chf))
    (hcc : lookupKey chf ch = some (.vobj cf)) :
    getPathSegs (List.foldl pairingOffStep (.vobj d2) profileChannels)
        ["channels", ch, "dmPolicy"]
      = if (!Value.truthyO (lookupKey cf "dmPolicy")) = true
        then some (.vstr "open") else lookupKey cf "dmPolicy" := by
  have hndp : profileChannels.Nodup := by decide
  have hsplitAll : ∀ a ∈ profileChannels,
      splitPath ("channels." ++ a) = ["channels", a]
      ∧ splitPath ("channels." ++ a ++ ".dmPolicy")
          = ["channels", a, "dmPolicy"] := by
    intro a ha
    simp only [profileChannels, List.mem_cons, List.not_mem_nil,
      or_false] at ha
    rcases ha with rfl | rfl | rfl | rfl | rfl <;> exact ⟨rfl, rfl⟩
  obtain ⟨hin, -⟩ :=
    pairingOff_fold profileChannels d2 chf cf ch hndp hsplitAll hd2 hcc
  obtain ⟨d', c', cf', hfold, hd', hc', hp'⟩ := hin hch
  rw [hfold]
  simp [getPathSegs_vobj_cons, hd', hc', getPathSegs_vobj_single, hp']
  split
  · rename_i o v heq
    rw [show getPathSegs v [] = some v from rfl]
    exact heq.symm
  · rename_i o heq
    exact heq.symm

/-- Amended C6: for every channel among the five that `applySecurityProfile`
walks (telegram, imessage, whatsapp, discord, slack) whose sub-tree is
present as a plain object, `standard`/`hardened` set its `dmPolicy` to
`pairing` exactly when the prior policy was falsy (unset or empty) or
`open`, and `minimal` sets it to `open` exactly when the prior policy was
falsy; an explicitly set `pairing` or `allowlist` policy is never changed
by any of the three profiles.  Channels outside that hard-coded list are
untouched (see the counterexample). -/
theorem applyProfile_amended (df chf cf : List (String × Value)) (ch : String)
    (hch : ch ∈ profileChannels)
    (hchs : lookupKey df "channels" = some (.vobj chf))
    (hcc : lookupKey chf ch = some (.vobj cf)) :
    (getPathSegs (applyProfileMutator standardSettings (.vobj df))
        ["channels", ch, "dmPolicy"]
      = if (!Value.truthyO (lookupKey cf "dmPolicy")
            || strictEqStr (lookupKey cf "dmPolicy") "open") = true
        then some (.vstr "pairing") else lookupKey cf "dmPolicy")
    ∧ (getPathSegs (applyProfileMutator hardenedSettings (.vobj df))
        ["channels", ch, "dmPolicy"]
      = if (!Value.truthyO (lookupKey cf "dmPolicy")
            || strictEqStr (lookupKey cf "dmPolicy") "open") = true
        then some (.vstr "pairing") else lookupKey cf "dmPolicy")
    ∧ (getPathSegs (applyProfileMutator minimalSettings (.vobj df))
        ["channels", ch, "dmPolicy"]
      = if (!Value.truthyO (lookupKey cf "dmPolicy")) = true
        then some (.vstr "open") else lookupKey cf "dmPolicy") := by
  refine ⟨?_, ?_, ?_⟩
  · rw [applyProfileMutator_standard, mergePath_security,
      setPath_gatewayProxies]
    refine foldOn_view _ chf cf ch hch ?_ hcc
    rw [lookupKey_setKey_other _ _ _ _ (by decide),
      lookupKey_setKey_other _ _ _ _ (by decide)]
    exact hchs
  · rw [applyProfileMutator_hardened, mergePath_security,
      setPath_gatewayProxies]
    refine foldOn_view _ chf cf ch hch ?_ hcc
    rw [lookupKey_setKey_other _ _ _ _ (by decide),
      lookupKey_setKey_other _ _ _ _ (by decide)]
    exact hchs
  · rw [applyProfileMutator_minimal, mergePath_security,
      setPath_gatewayProxies]
    refine foldOff_view _ chf cf ch hch ?_ hcc
    rw [lookupKey_setKey_other _ _ _ _ (by decide),
      lookupKey_setKey_other _ _ _ _ (by decide)]
    exact hchs

/-- Witness for the amended C6: an explicit `pairing` policy on Telegram
survives the `minimal` profile. -/
theorem applyProfile_amended_witness :
    getPathSegs (applyProfileMutator minimalSettings
        (.vobj [("channels", .vobj [("telegram",
          .vobj [("dmPolicy", .vstr "pairing")])])]))
        ["channels", "telegram", "dmPolicy"]
      = some (.vstr "pairing") :=
  ((applyProfile_amended
      [("channels", .vobj [("telegram", .vobj [("dmPolicy", .vstr "pairing")])])]
      [("telegram", .vobj [("dmPolicy", .vstr "pairing")])]
      [("dmPolicy", .vstr "pairing")] "telegram"
      (by decide) rfl rfl).2.2).trans rfl
